import Mathlib

/-!
# Verification of the blog-server multi-locale content model

A shallow embedding of the blog server's content core (posts, tags,
comments, translation linking, engagement aggregation, listing, and the
related-posts search), translated from the TypeScript sources
(`src/repositories/PostRepository.ts`, `src/services/PostService.ts`,
`src/services/CommentService.ts`, `src/services/EmbeddingService.ts`,
`src/routes/admin.ts`, `src/sql` query definitions, and the relational
schema from the migrations/test setup), together with theorems settling
the specification's claims about that core.

Modelling conventions:
* The relational store is a record of lists kept in insertion (rowid)
  order.  A SQL `ORDER BY` is modelled as a stable insertion sort over
  that list, `LIMIT`/`OFFSET` as `take`/`drop`, and a parameterized
  point query as `List.find?`.
* ISO-8601 UTC timestamp strings compare lexicographically, so
  timestamps are modelled as `Nat` with its linear order.
* Machine `number` ids are small positive integers in practice
  (SQLite `AUTOINCREMENT` starts at 1), modelled as `Nat`; the
  JavaScript idiom `post.original_post_id || id` therefore coincides
  with `Option.getD`.
* Thrown `ValidationError` / `NotFoundError` / `ConflictError`
  exceptions become an `Except` with an explicit error kind.
-/

namespace BlogSpec

/-- Error taxonomy of `src/utils/errors.ts` (the kinds reachable from the
content core: `ValidationError`, `NotFoundError`, `ConflictError`). -/
inductive Err where
  | validation : String → Err
  | notFound : String → Err
  | conflict : String → Err
deriving DecidableEq, Repr

/-- Whether an error is the `ConflictError` category (HTTP 409). -/
def Err.isConflict : Err → Bool
  | .conflict _ => true
  | _ => false

/-- A row of the `posts` table (schema from the test setup /
`0001_add_locale` migration): `original_post_id` is a nullable
self-reference with `ON DELETE SET NULL`. -/
structure Post where
  id : Nat
  slug : String
  title : String
  content : String
  summary : Option String
  state : String
  locale : String
  original_post_id : Option Nat
  created_at : Nat
  updated_at : Nat
  views : Nat
deriving DecidableEq, Repr

/-- A row of the `comments` table (UUID primary key, `post_id` references
`posts(id) ON DELETE CASCADE`). -/
structure Comment where
  id : String
  content : String
  author_name : String
  created_at : Nat
  post_id : Nat
deriving DecidableEq, Repr

/-- A row of the `tags` table (`post_count` is the denormalized counter). -/
structure Tag where
  id : Nat
  name : String
  created_at : Nat
  post_count : Nat
deriving DecidableEq, Repr

/-- The relational store: each list is in insertion (rowid) order.
`postTags` is the `post_tags` join table (`post_id`, `tag_id`), both
foreign keys `ON DELETE CASCADE`. -/
structure DB where
  posts : List Post
  comments : List Comment
  tags : List Tag
  postTags : List (Nat × Nat)
deriving DecidableEq, Repr

/-- `posts.id` is the primary key: all rows carry distinct ids. -/
def UniquePostIds (db : DB) : Prop :=
  db.posts.Pairwise (fun a b => a.id ≠ b.id)

instance (db : DB) : Decidable (UniquePostIds db) := by
  unfold UniquePostIds; infer_instance

/-! ## A stable insertion sort (the model of SQL `ORDER BY`)

`insLe le a l` puts `a` after every already-present element that
compares `≤ a`, so folding a list through it from the left keeps
insertion order among ties — the stable-order reading of `ORDER BY`
over rowid-ordered rows that the engagement contract relies on. -/

def insLe (le : α → α → Bool) (a : α) : List α → List α
  | [] => [a]
  | b :: l => if le b a then b :: insLe le a l else a :: b :: l

def sortLe (le : α → α → Bool) (l : List α) : List α :=
  l.foldl (fun acc a => insLe le a acc) []

/-! ## Kernel-computable string helpers

`String.trim`, `String.toLower`, `String.take` and `String.splitOn` are
implemented through `Substring` primitives that the kernel cannot
reduce; these list-level equivalents (same semantics, expressed on the
`List Char` representation) stand in for them so that concrete runs of
the model are checkable by `decide`. -/

/-- JS `String.prototype.trim`: strip whitespace from both ends. -/
def strTrim (s : String) : String :=
  String.mk (((s.data.dropWhile Char.isWhitespace).reverse.dropWhile
    Char.isWhitespace).reverse)

/-- JS `String.prototype.toLowerCase` (ASCII case folding). -/
def strToLower (s : String) : String :=
  String.mk (s.data.map Char.toLower)

/-- JS `String.prototype.substring(0, n)` on the character level. -/
def strTake (s : String) (n : Nat) : String :=
  String.mk (s.data.take n)

def splitCommaAux : List Char → List Char → List String
  | [], acc => [String.mk acc.reverse]
  | c :: cs, acc =>
    if c == ',' then String.mk acc.reverse :: splitCommaAux cs []
    else splitCommaAux cs (c :: acc)

/-- JS `sort.split(",")`. -/
def strSplitComma (s : String) : List String :=
  splitCommaAux s.data []

/-! ## PostRepository (`src/repositories/PostRepository.ts`) -/

/-- `findById`: `SELECT * FROM posts WHERE id = ?`. -/
def findById (db : DB) (id : Nat) : Option Post :=
  db.posts.find? (fun p => p.id == id)

/-- `findBySlugAndLocale`: `SELECT id FROM posts WHERE slug = ? AND locale = ?`
(used for the create-time uniqueness check; here we return the row). -/
def findBySlugAndLocale (db : DB) (slug locale : String) : Option Post :=
  db.posts.find? (fun p => p.slug == slug && p.locale == locale)

/-- `findTranslation`: lookup of the translation row for
`(originalPostId, locale)` per `PostRepository.findTranslation`
(`postQueries.selectTranslation`; the query text selects the post whose
`original_post_id` and `locale` match the arguments). -/
def findTranslation (db : DB) (originalPostId : Nat) (locale : String) :
    Option Post :=
  db.posts.find? (fun p =>
    p.original_post_id == some originalPostId && p.locale == locale)

/-- The identity-resolution idiom `post.original_post_id || id`:
a translation resolves to its original, an identity post to itself. -/
def resolveId (p : Post) : Nat :=
  p.original_post_id.getD p.id

/-- `incrementViews`: looks the row up, resolves the identity id, and runs
`UPDATE posts SET views = views + 1 WHERE id = ? AND state = 'published'`
(`postQueries.incrementViews`) against the identity id.  A missing row is
a silent no-op (`if (!post) return`). -/
def incrementViews (db : DB) (id : Nat) : DB :=
  match findById db id with
  | none => db
  | some post =>
    let targetId := resolveId post
    { db with
      posts := db.posts.map (fun p =>
        if p.id == targetId && p.state == "published" then
          { p with views := p.views + 1 }
        else p) }

/-- `getViews`: looks the row up, resolves the identity id, and reads
`SELECT views FROM posts WHERE id = ?` for it (`result?.views ?? null`). -/
def getViews (db : DB) (id : Nat) : Option Nat :=
  match findById db id with
  | none => none
  | some post =>
    (db.posts.find? (fun p => p.id == resolveId post)).map (·.views)

/-- `getTagsByPostId`: tag names joined through `post_tags`
(`postTagQueries.selectTagsByPostId`). -/
def getTagsByPostId (db : DB) (postId : Nat) : List String :=
  (db.postTags.filter (fun pt => pt.1 == postId)).filterMap (fun pt =>
    (db.tags.find? (fun t => t.id == pt.2)).map (·.name))

/-- The store-level effect of `DELETE FROM posts WHERE id = ?` under the
schema's referential actions: `comments.post_id` and `post_tags.post_id`
are `ON DELETE CASCADE`, while `posts.original_post_id` is
`ON DELETE SET NULL` (0001_add_locale migration / test-setup schema), so
translations of a deleted identity survive with a nulled back-reference. -/
def dbDelete (db : DB) (id : Nat) : DB :=
  { posts := (db.posts.filter (fun p => !(p.id == id))).map (fun p =>
      if p.original_post_id == some id then { p with original_post_id := none }
      else p),
    comments := db.comments.filter (fun c => !(c.post_id == id)),
    tags := db.tags,
    postTags := db.postTags.filter (fun pt => !(pt.1 == id)) }

/-! ## CommentRepository / CommentService
(`src/repositories/CommentRepository.ts`, `src/services/CommentService.ts`) -/

/-- `commentQueries.checkPostExists`:
`SELECT id FROM posts WHERE id = ? AND state = 'published'`. -/
def postExistsPublished (db : DB) (id : Nat) : Bool :=
  (db.posts.find? (fun p => p.id == id && p.state == "published")).isSome

/-- `CommentRepository.getOriginalPostId`: fetches the row and returns
`original_post_id || id`, or `null` when the row is missing. -/
def getOriginalPostId (db : DB) (id : Nat) : Option Nat :=
  (findById db id).map resolveId

/-- `commentQueries.selectByPostId`:
`SELECT ... FROM comments WHERE post_id = ? ORDER BY created_at ASC`,
modelled as a stable chronological sort of the insertion-ordered rows. -/
def commentsByPostId (db : DB) (postId : Nat) : List Comment :=
  sortLe (fun a b => decide (a.created_at ≤ b.created_at))
    (db.comments.filter (fun c => c.post_id == postId))

/-- The comment DTO returned by `CommentService`. -/
structure CommentResponse where
  id : String
  content : String
  authorName : String
  createdAt : Nat
  postId : Nat
deriving DecidableEq, Repr

def commentToResponse (c : Comment) : CommentResponse :=
  { id := c.id, content := c.content, authorName := c.author_name,
    createdAt := c.created_at, postId := c.post_id }

/-- `validateCreateComment` (`src/utils/validation.ts`): content must be a
nonempty string of at most 500 characters, author a 2–20 character name
(JS `!data.content` treats the empty string as missing). -/
def validateCreateComment (content author : String) : List String :=
  (if content = "" then ["Content is required and must be a string"]
   else if (strTrim content).length < 1 || 500 < content.length then
     ["Content must be between 1 and 500 characters"]
   else []) ++
  (if author = "" then ["Author is required and must be a string"]
   else if (strTrim author).length < 2 || 20 < author.length then
     ["Author must be between 2 and 20 characters"]
   else [])

/-- `CommentService.getCommentsByPostId`: requires the referenced variant
to exist and be published, resolves the identity id, and lists the
identity's comments chronologically. -/
def getCommentsByPostId (db : DB) (postId : Nat) :
    Except Err (List CommentResponse) :=
  if !postExistsPublished db postId then .error (.notFound "Post not found")
  else
    match getOriginalPostId db postId with
    | none => .error (.notFound "Post not found")
    | some originalId =>
      .ok ((commentsByPostId db originalId).map commentToResponse)

/-- `CommentService.createComment`: requires the referenced variant to
exist and be published, resolves the identity id, validates the body,
and inserts the comment against the identity id (`// Always store on
original post`).  `cid`/`now` stand for `crypto.randomUUID()` and
`new Date().toISOString()`. -/
def createComment (db : DB) (postId : Nat) (content author : String)
    (cid : String) (now : Nat) : Except Err (DB × CommentResponse) :=
  if !postExistsPublished db postId then .error (.notFound "Post not found")
  else
    match getOriginalPostId db postId with
    | none => .error (.notFound "Post not found")
    | some originalId =>
      match validateCreateComment content author with
      | [] =>
        let c : Comment :=
          { id := cid, content := content, author_name := author,
            created_at := now, post_id := originalId }
        .ok ({ db with comments := db.comments ++ [c] }, commentToResponse c)
      | errs => .error (.validation (String.intercalate ", " errs))

/-! ## Slug derivation and request validation
(`PostService.generateSlug`, `src/utils/validation.ts`) -/

/-- A character the regex class `[a-z0-9]` accepts. -/
def isLowerAlnum (c : Char) : Bool :=
  (decide ('a' ≤ c) && decide (c ≤ 'z')) || (decide ('0' ≤ c) && decide (c ≤ '9'))

/-- `.replace(/[^a-z0-9]+/g, "-")`: collapse each maximal run of
characters outside `[a-z0-9]` to a single hyphen.  The flag records
whether the previous character belonged to such a run. -/
def collapseRuns : List Char → Bool → List Char
  | [], _ => []
  | c :: cs, inRun =>
    if isLowerAlnum c then c :: collapseRuns cs false
    else if inRun then collapseRuns cs true
    else '-' :: collapseRuns cs true

/-- `PostService.generateSlug`:
`title.toLowerCase().replace(/[^a-z0-9]+/g, "-").replace(/^-+|-+$/g, "")`
(ASCII lowercasing; the non-ASCII case folding of JS `toLowerCase` is
immaterial here because any character still outside `[a-z0-9]` is
collapsed to a hyphen either way). -/
def generateSlug (title : String) : String :=
  let collapsed := collapseRuns (title.data.map Char.toLower) false
  String.mk
    (((collapsed.dropWhile (· == '-')).reverse.dropWhile (· == '-')).reverse)

/-- `validateSlug`'s pattern `^[a-z0-9]+(?:-[a-z0-9]+)*$`: nonempty,
only `[a-z0-9-]`, no leading/trailing hyphen, no adjacent hyphens. -/
def slugPatOk (s : String) : Bool :=
  match s.data with
  | [] => false
  | l =>
    l.all (fun c => isLowerAlnum c || c == '-') &&
    !(l.headD '-' == '-') && !(l.getLastD '-' == '-') &&
    (l.zip l.tail).all (fun ab => !(ab.1 == '-' && ab.2 == '-'))

/-- A create/update request body as destructured by `PostService`
(`title, content, summary, tags = [], state, locale = "ko",
originalPostId = null, createdAt, slug`). -/
structure PostReq where
  title : String
  content : String
  summary : Option String
  state : String
  locale : String := "ko"
  slug : Option String := none
  tags : List String := []
  originalPostId : Option Nat := none
  createdAt : Option Nat := none
deriving DecidableEq, Repr

/-- `validatePostRequest`: required fields (`title`, `content`,
`summary`, `state` — absent or empty fails), min-length-1 after trim,
state enum, optional slug pattern, and tags shape (≤ 20 nonempty
strings).  Returns the first thrown error's message. -/
def validatePostRequest (r : PostReq) : Option String :=
  if r.title = "" || r.content = "" || r.summary = none || r.summary = some ""
      || r.state = "" then
    some "Missing required fields"
  else if strTrim r.title = "" then some "title must be at least 1 characters"
  else if strTrim r.content = "" then some "content must be at least 1 characters"
  else if strTrim (r.summary.getD "") = "" then
    some "summary must be at least 1 characters"
  else if !(r.state == "published" || r.state == "draft") then
    some "state must be one of: published, draft"
  else if r.slug.isSome && !slugPatOk (r.slug.getD "") then
    some "Slug must contain only lowercase letters, numbers, and hyphens (pattern: a-z0-9-)"
  else if 20 < r.tags.length then some "tags must not exceed 20 items"
  else if r.tags.any (fun t => strTrim t = "") then
    some "Tag must be a non-empty string"
  else none

/-! ## PostService (`src/services/PostService.ts`) -/

/-- SQLite `AUTOINCREMENT`: the next rowid is one past the largest id
ever used; over insertion-ordered rows, one past the maximum. -/
def nextId (db : DB) : Nat :=
  (db.posts.foldl (fun m p => max m p.id) 0) + 1

def nextTagId (db : DB) : Nat :=
  (db.tags.foldl (fun m t => max m t.id) 0) + 1

/-- `PostService.associateTags`: for each name, reuse the existing tag or
insert a new one with `post_count = 0` (`tagQueries.insert` binds the
literal `0`), then insert the join row.  No statement in this path
touches `post_count`. -/
def associateTags (db : DB) (postId : Nat) (tags : List String) (ts : Nat) :
    DB :=
  tags.foldl (fun db tagName =>
    match db.tags.find? (fun t => t.name == tagName) with
    | some t => { db with postTags := db.postTags ++ [(postId, t.id)] }
    | none =>
      let tid := nextTagId db
      { db with
        tags := db.tags ++ [{ id := tid, name := tagName, created_at := ts,
                              post_count := 0 }],
        postTags := db.postTags ++ [(postId, tid)] }) db

/-- The row `PostRepository.create` inserts for a validated request
(slug defaulted from the title, `createdAt` defaulted to now,
`views = 0`). -/
def newPost (db : DB) (r : PostReq) (now : Nat) : Post :=
  { id := nextId db,
    slug := r.slug.getD (generateSlug r.title),
    title := r.title, content := r.content, summary := r.summary,
    state := r.state, locale := r.locale,
    original_post_id := r.originalPostId,
    created_at := r.createdAt.getD now, updated_at := now, views := 0 }

/-- `PostService.createPost`: validate, derive the slug when absent,
reject an existing `(slug, locale)` pair with
`ValidationError("Slug already exists")`, insert, then associate tags.
The fire-and-forget embedding trigger is external to the store model. -/
def createPost (db : DB) (r : PostReq) (now : Nat) :
    Except Err (DB × Nat) :=
  match validatePostRequest r with
  | some e => .error (.validation e)
  | none =>
    let slug := r.slug.getD (generateSlug r.title)
    match findBySlugAndLocale db slug r.locale with
    | some _ => .error (.validation "Slug already exists")
    | none =>
      let pid := nextId db
      let db1 := { db with posts := db.posts ++ [newPost db r now] }
      .ok (associateTags db1 pid r.tags now, pid)

/-- The row update performed by `postQueries.update`
(`slug = COALESCE(?, slug)`, `created_at = COALESCE(?, created_at)`;
`id`, `locale`, `original_post_id` and `views` are not in the SET list). -/
def updRow (r : PostReq) (now : Nat) (p : Post) : Post :=
  { p with
    title := r.title
    content := r.content
    summary := r.summary
    state := r.state
    slug := r.slug.getD p.slug
    created_at := r.createdAt.getD p.created_at
    updated_at := now }

/-- `PostService.updatePost`: validate, 404 on a missing row, reject a
slug change colliding inside the same locale (excluding the row itself),
update the row, then replace the full tag set (delete-all then
re-associate). -/
def updatePost (db : DB) (postId : Nat) (r : PostReq) (now : Nat) :
    Except Err DB :=
  match validatePostRequest r with
  | some e => .error (.validation e)
  | none =>
    match findById db postId with
    | none => .error (.notFound "Post not found")
    | some existing =>
      let conflict := match r.slug with
        | none => false
        | some s =>
          (db.posts.find? (fun q : Post =>
            q.slug == s && q.locale == existing.locale && !(q.id == postId))).isSome
      if conflict then .error (.validation "Slug already exists")
      else
        let db1 := { db with posts := db.posts.map (fun p : Post =>
          if p.id == postId then updRow r now p else p) }
        let db2 := { db1 with
          postTags := db1.postTags.filter (fun pt => !(pt.1 == postId)) }
        .ok (associateTags db2 postId r.tags now)

/-- `PostService.deletePost`: 404 when the row is missing, otherwise the
store-level delete with its referential actions.  The asynchronous
embedding deletion is external and best-effort. -/
def deletePost (db : DB) (postId : Nat) : Except Err (DB × Nat) :=
  match findById db postId with
  | none => .error (.notFound "Post not found")
  | some _ => .ok (dbDelete db postId, postId)

/-- `PostService.incrementPostViews`: run the guarded increment, then
read the unified count; a `null` count (row missing) is a 404. -/
def incrementPostViews (db : DB) (postId : Nat) :
    Except Err (DB × Nat) :=
  let db1 := incrementViews db postId
  match getViews db1 postId with
  | none => .error (.notFound "Post not found")
  | some v => .ok (db1, v)

/-! ## The translate operation (`POST /admin/posts/:postId/translate`,
`src/routes/admin.ts`) -/

/-- The external AI translator (`c.env.AI.run` with the ko→en prompts).
`none` stands for a missing or empty (`!translatedX` after `trim`)
response. -/
structure AIOracle where
  translateTitle : String → Option String
  translateContent : String → Option String
  translateSummary : String → Option String

/-- The translate route handler.  Guard order is exactly the source's:
target-locale allow-list, row existence, source-locale check, duplicate
translation check — all before any AI call.  The second component counts
the AI invocations performed (title, content, and summary when the
original has a nonempty one). -/
def translatePost (db : DB) (postId : Nat) (targetLocale : String)
    (ai : AIOracle) (now : Nat) : Except Err (DB × Nat) × Nat :=
  if !(targetLocale == "en") then
    (.error (.validation "Only English translation is supported"), 0)
  else
    match findById db postId with
    | none => (.error (.validation "Post not found"), 0)
    | some originalPost =>
      if !(originalPost.locale == "ko") then
        (.error (.validation "Only Korean posts can be translated"), 0)
      else
        match findTranslation db postId targetLocale with
        | some _ => (.error (.validation "Translation already exists"), 0)
        | none =>
          match ai.translateTitle originalPost.title with
          | none => (.error (.validation "AI failed to translate title"), 1)
          | some translatedTitle =>
            match ai.translateContent originalPost.content with
            | none =>
              (.error (.validation "AI failed to translate content"), 2)
            | some translatedContent =>
              let sumStep : Option String × Nat :=
                match originalPost.summary with
                | none => (none, 0)
                | some s =>
                  if s = "" then (some s, 0)
                  else
                    match ai.translateSummary s with
                    | none => (some s, 1)
                    | some raw =>
                      (some (if 200 < raw.length then strTake raw 197 ++ "..."
                             else raw), 1)
              let req : PostReq :=
                { title := translatedTitle
                  content := translatedContent
                  summary := sumStep.1
                  state := "draft"
                  locale := targetLocale
                  slug := some originalPost.slug
                  tags := getTagsByPostId db postId
                  originalPostId := some postId
                  createdAt := some originalPost.created_at }
              (createPost db req now, 2 + sumStep.2)

/-! ## EmbeddingService (`src/services/EmbeddingService.ts`) -/

/-- Vector metadata stored with each embedding
(`{postId, title, slug, state, publishedAt}`). -/
structure VectorMeta where
  postId : Nat
  title : String
  slug : String
  state : String
  publishedAt : Option Nat
deriving DecidableEq, Repr

/-- A stored vector as returned by `vectorize.getByIds`
(`values` may be absent — the code checks `!vectors[0].values`). -/
structure VVector where
  id : String
  values : Option (List Int)
deriving DecidableEq, Repr

/-- A ranked match returned by `vectorize.query`. -/
structure VMatch where
  id : String
  score : Int
  metadata : VectorMeta
deriving DecidableEq, Repr

/-- The external Vectorize index: `getByIds` and `query` as consumed by
`findSimilarPosts` (vector values, oversampled `topK`, and the
`{ state: "published" }` metadata filter string the code passes).
`Except` captures index unavailability, which the code catches. -/
structure Vectorize where
  getByIds : List String → Except String (List VVector)
  query : List Int → Nat → String → Except String (List VMatch)

/-- The related-post DTO (`{id, slug, title, score}` from match
metadata). -/
structure RelatedPost where
  id : Nat
  slug : String
  title : String
  score : Int
deriving DecidableEq, Repr

/-- `EmbeddingService.findSimilarPosts`: fetch the identity's own vector
(empty result when missing), query `topK + 1` neighbors with the
`state = "published"` metadata filter, drop the self match by vector id,
truncate to `topK`, and map metadata out.  Every thrown failure is
caught and becomes `[]`.  No `publishedAt` comparison appears anywhere
in this path. -/
def findSimilarPosts (vz : Vectorize) (postId : Nat) (topK : Nat) :
    List RelatedPost :=
  let vectorId := "post-" ++ toString postId
  match vz.getByIds [vectorId] with
  | .error _ => []
  | .ok vectors =>
    match vectors.head? with
    | none => []
    | some v0 =>
      match v0.values with
      | none => []
      | some vals =>
        match vz.query vals (topK + 1) "published" with
        | .error _ => []
        | .ok results =>
          ((results.filter (fun m => !(m.id == vectorId))).take topK).map
            (fun m =>
              { id := m.metadata.postId, slug := m.metadata.slug,
                title := m.metadata.title, score := m.score })

/-! ## Listing & pagination
(`PostRepository.findAll` / `findAllAdmin` / `count` / `countAdmin`,
`PostService.getPosts` / `getAdminPosts`) -/

/-- `validatePagination` for non-negative machine integers: the page
check can only fail on negatives (out of range for `Nat`), the size
check enforces `1 ≤ size ≤ 100`. -/
def validatePagination (page size : Nat) : List String :=
  (if page < 0 then ["Page must be a non-negative integer"] else []) ++
  (if size < 1 || 100 < size then ["Size must be between 1 and 100"] else [])

/-- `validateSorting`: split on the comma (direction defaults to
`"desc"`), check the field allow-list and the direction. -/
def validateSorting (sort : String) (allowedFields : List String) :
    List String :=
  let parts := strSplitComma sort
  let field := parts.headD ""
  let direction := (parts.drop 1).headD "desc"
  (if allowedFields.contains field then []
   else ["Sort field must be one of: " ++ String.intercalate ", " allowedFields]) ++
  (if ["asc", "desc"].contains (strToLower direction) then []
   else ["Sort direction must be \"asc\" or \"desc\""])

/-- The comparator named by a validated `ORDER BY` column. -/
def postFieldLe (dbField : String) (a b : Post) : Bool :=
  if dbField = "created_at" then decide (a.created_at ≤ b.created_at)
  else if dbField = "updated_at" then decide (a.updated_at ≤ b.updated_at)
  else if dbField = "views" then decide (a.views ≤ b.views)
  else decide (a.title ≤ b.title)

/-- The comparator for the full `orderClause` (`field ASC|DESC`). -/
def orderLe (dbField : String) (asc : Bool) (a b : Post) : Bool :=
  if asc then postFieldLe dbField a b else postFieldLe dbField b a

/-- `fieldMapping` from API sort keys to columns. -/
def mapSortField (field : String) : String :=
  if field = "createdAt" then "created_at"
  else if field = "updatedAt" then "updated_at"
  else field

/-- The `COALESCE((SELECT op.views FROM posts op WHERE op.id =
p.original_post_id), p.views)` projection both listings select. -/
def coalescedViews (db : DB) (p : Post) : Nat :=
  match p.original_post_id with
  | none => p.views
  | some oid =>
    match db.posts.find? (fun q => q.id == oid) with
    | some op => op.views
    | none => p.views

/-- The public listing's `WHERE` clause: published, locale match,
`created_at <= strftime('now')`, and (when filtering by tag) membership
in the tag's join rows. -/
def publicWhere (db : DB) (tag : Option String) (locale : String)
    (now : Nat) (p : Post) : Bool :=
  p.state == "published" && p.locale == locale &&
  decide (p.created_at ≤ now) &&
  (match tag with
   | none => true
   | some t =>
     db.postTags.any (fun pt =>
       pt.1 == p.id && db.tags.any (fun tg => tg.id == pt.2 && tg.name == t)))

/-- `PostRepository.findAll`: filter, project the unified view count,
order, and page (`LIMIT ? OFFSET ?`). -/
def findAllPublic (db : DB) (tag : Option String) (locale : String)
    (offset limit : Nat) (le : Post → Post → Bool) (now : Nat) :
    List Post :=
  (((sortLe le
      ((db.posts.filter (publicWhere db tag locale now)).map
        (fun p => { p with views := coalescedViews db p }))).drop
    offset).take limit)

/-- `PostRepository.count`: the same filters, counted independently of
the page slice. -/
def countPublic (db : DB) (tag : Option String) (locale : String)
    (now : Nat) : Nat :=
  (db.posts.filter (publicWhere db tag locale now)).length

/-- The admin listing's `WHERE` clause: only the optional locale filter —
no state and no time filtering. -/
def adminWhere (locale : Option String) (p : Post) : Bool :=
  match locale with
  | none => true
  | some l => p.locale == l

/-- `PostRepository.findAllAdmin`. -/
def findAllAdmin (db : DB) (locale : Option String) (offset limit : Nat)
    (le : Post → Post → Bool) : List Post :=
  (((sortLe le
      ((db.posts.filter (adminWhere locale)).map
        (fun p => { p with views := coalescedViews db p }))).drop
    offset).take limit)

/-- `PostRepository.countAdmin`. -/
def countAdmin (db : DB) (locale : Option String) : Nat :=
  (db.posts.filter (adminWhere locale)).length

/-- `getTagsForPosts` restricted to one post: the join rows' tag names,
name-ordered (`ORDER BY pt.post_id, t.name`). -/
def tagsForPost (db : DB) (postId : Nat) : List String :=
  sortLe (fun a b => decide (a ≤ b)) (getTagsByPostId db postId)

/-- A listing row DTO.  The public `SELECT` list omits the `state`
column, so the public mapper's `state: post.state` reads an absent
property: public items carry no state (`none`); admin items carry the
computed display state. -/
structure PostListItem where
  id : Nat
  slug : String
  title : String
  summary : Option String
  tags : List String
  state : Option String
  locale : String
  originalPostId : Option Nat
  createdAt : Nat
  updatedAt : Nat
  views : Nat
deriving DecidableEq, Repr

/-- Paged response envelope. -/
structure Paginated (α : Type) where
  content : List α
  totalElements : Nat
  pageNumber : Nat
  pageSize : Nat
deriving DecidableEq, Repr

/-- The public listing mapper. -/
def publicItem (db : DB) (p : Post) : PostListItem :=
  { id := p.id, slug := p.slug, title := p.title, summary := p.summary,
    tags := tagsForPost db p.id, state := none, locale := p.locale,
    originalPostId := p.original_post_id, createdAt := p.created_at,
    updatedAt := p.updated_at, views := p.views }

/-- The admin mapper with the computed display state: `published` with a
future creation timestamp displays as `scheduled`; otherwise the stored
state (`draft` stays `draft`). -/
def adminItem (db : DB) (now : Nat) (p : Post) : PostListItem :=
  { id := p.id, slug := p.slug, title := p.title, summary := p.summary,
    tags := tagsForPost db p.id,
    state := some (if p.state == "published" && decide (now < p.created_at)
                   then "scheduled" else p.state),
    locale := p.locale, originalPostId := p.original_post_id,
    createdAt := p.created_at, updatedAt := p.updated_at, views := p.views }

/-- Shared listing plumbing of `getPosts` / `getAdminPosts`: pagination
and sorting validation, field mapping, `offset = page * size`. -/
def sortSpec (sort : String) : Post → Post → Bool :=
  let parts := strSplitComma sort
  let field := mapSortField (parts.headD "")
  let direction := (parts.drop 1).headD "desc"
  orderLe field (strToLower direction == "asc")

/-- `PostService.getPosts` (public path). -/
def getPosts (db : DB) (tag : Option String) (locale : String)
    (page size : Nat) (sort : String) (now : Nat) :
    Except Err (Paginated PostListItem) :=
  match validatePagination page size with
  | e :: es => .error (.validation (String.intercalate ", " (e :: es)))
  | [] =>
    match validateSorting sort ["createdAt", "updatedAt", "views", "title"] with
    | e :: es => .error (.validation (String.intercalate ", " (e :: es)))
    | [] =>
      let posts := findAllPublic db tag locale (page * size) size
        (sortSpec sort) now
      .ok { content := posts.map (publicItem db)
            totalElements := countPublic db tag locale now
            pageNumber := page
            pageSize := size }

/-- `PostService.getAdminPosts` (admin path, scheduled labelling). -/
def getAdminPosts (db : DB) (locale : Option String) (page size : Nat)
    (sort : String) (now : Nat) : Except Err (Paginated PostListItem) :=
  match validatePagination page size with
  | e :: es => .error (.validation (String.intercalate ", " (e :: es)))
  | [] =>
    match validateSorting sort ["createdAt", "updatedAt", "views", "title"] with
    | e :: es => .error (.validation (String.intercalate ", " (e :: es)))
    | [] =>
      let posts := findAllAdmin db locale (page * size) size (sortSpec sort)
      .ok { content := posts.map (adminItem db now)
            totalElements := countAdmin db locale
            pageNumber := page
            pageSize := size }

/-! ## Reachability through the service operations (for the
translation-linking invariant) -/

/-- States reachable from an empty store through the service operations
the invariant claim names: `createPost` (with whatever `originalPostId`
the authenticated request body carries — the route passes the parsed
JSON straight through), `updatePost`, and the translate operation. -/
inductive Reach : DB → Prop where
  | empty : Reach { posts := [], comments := [], tags := [], postTags := [] }
  | create {db db' : DB} {r : PostReq} {now pid : Nat} :
      Reach db → createPost db r now = .ok (db', pid) → Reach db'
  | update {db db' : DB} {postId : Nat} {r : PostReq} {now : Nat} :
      Reach db → updatePost db postId r now = .ok db' → Reach db'
  | translate {db db' : DB} {postId : Nat} {tl : String} {ai : AIOracle}
      {now nid : Nat} :
      Reach db → (translatePost db postId tl ai now).1 = .ok (db', nid) →
      Reach db'

/-- The same operations, but with `createPost` requests that do not
supply an `originalPostId` — translation rows then enter the store only
through the translate operation. -/
inductive ReachNoOrig : DB → Prop where
  | empty : ReachNoOrig { posts := [], comments := [], tags := [], postTags := [] }
  | create {db db' : DB} {r : PostReq} {now pid : Nat} :
      ReachNoOrig db → r.originalPostId = none →
      createPost db r now = .ok (db', pid) → ReachNoOrig db'
  | update {db db' : DB} {postId : Nat} {r : PostReq} {now : Nat} :
      ReachNoOrig db → updatePost db postId r now = .ok db' → ReachNoOrig db'
  | translate {db db' : DB} {postId : Nat} {tl : String} {ai : AIOracle}
      {now nid : Nat} :
      ReachNoOrig db → (translatePost db postId tl ai now).1 = .ok (db', nid) →
      ReachNoOrig db'

instance {e a : Type} [DecidableEq e] [DecidableEq a] :
    DecidableEq (Except e a) := fun x y =>
  match x, y with
  | .ok a, .ok b =>
    if h : a = b then .isTrue (by rw [h]) else .isFalse (by simpa using h)
  | .error a, .error b =>
    if h : a = b then .isTrue (by rw [h]) else .isFalse (by simpa using h)
  | .ok _, .error _ => .isFalse (by simp)
  | .error _, .ok _ => .isFalse (by simp)

/-! ## Concrete fixtures used by counterexamples and witnesses -/

/-- Row builder for fixtures (content fields held fixed). -/
def mkPost (i : Nat) (sl st lo : String) (orig : Option Nat) (ca v : Nat) :
    Post :=
  { id := i, slug := sl, title := sl, content := "c", summary := some "s",
    state := st, locale := lo, original_post_id := orig, created_at := ca,
    updated_at := ca, views := v }

def emptyDB : DB := { posts := [], comments := [], tags := [], postTags := [] }

/-- Fixture: a draft identity post (id 1) with a published English
translation (id 2). -/
def cxDb1 : DB :=
  { posts := [mkPost 1 "a" "draft" "ko" none 0 0,
              mkPost 2 "a-en" "published" "en" (some 1) 0 0]
    comments := []
    tags := []
    postTags := [] }

/-- Witness fixture for C1: a published identity with 5 views and two
translations. -/
def wP1 : Post := mkPost 1 "a" "published" "ko" none 0 5

def wT1 : Post := mkPost 2 "a-en" "published" "en" (some 1) 0 0

def wU1 : Post := mkPost 3 "a-ja" "draft" "ja" (some 1) 0 0

def wDb1 : DB :=
  { posts := [wP1, wT1, wU1], comments := [], tags := [], postTags := [] }

/-- Fixture for the delete claim: a published identity (id 1) with a
published translation (id 2), one comment on the identity, one tag
associated with both rows. -/
def cxDb3 : DB :=
  { posts := [mkPost 1 "a" "published" "ko" none 0 0,
              mkPost 2 "a-en" "published" "en" (some 1) 0 0]
    comments := [{ id := "u-1", content := "hi", author_name := "Bob",
                   created_at := 1, post_id := 1 }]
    tags := [{ id := 5, name := "t", created_at := 0, post_count := 1 }]
    postTags := [(1, 5), (2, 5)] }


/-- Fixture request for the tag-counter claim: a create with one tag. -/
def c9req : PostReq :=
  { title := "Hello", content := "c", summary := some "s",
    state := "published", tags := ["test"] }

/-- The store `createPost emptyDB c9req 1` produces: one post, one tag
row inserted with `post_count = 0`, one join row. -/
def c9DbAfter : DB :=
  { posts := [{ id := 1, slug := "hello", title := "Hello", content := "c",
                summary := some "s", state := "published", locale := "ko",
                original_post_id := none, created_at := 1, updated_at := 1,
                views := 0 }]
    comments := []
    tags := [{ id := 1, name := "test", created_at := 1, post_count := 0 }]
    postTags := [(1, 1)] }

/-- Fixture request for the slug claims: a title whose derived slug is
`hello-world` (the `", "` run collapses to a single hyphen, the trailing
`"!"` is trimmed). -/
def c8req : PostReq :=
  { title := "Hello, World!", content := "c", summary := some "s",
    state := "published" }

/-- The store after `createPost emptyDB c8req 10`. -/
def c8Db1 : DB :=
  { posts := [{ id := 1, slug := "hello-world", title := "Hello, World!",
                content := "c", summary := some "s", state := "published",
                locale := "ko", original_post_id := none, created_at := 10,
                updated_at := 10, views := 0 }]
    comments := []
    tags := []
    postTags := [] }

/-- An AI oracle that always answers (for witnesses; the guard theorems
hold for every oracle). -/
def wAi : AIOracle :=
  { translateTitle := fun _ => some "T"
    translateContent := fun _ => some "C"
    translateSummary := fun _ => some "S" }

/-- Vector metadata of the source post (id 1). -/
def cxMetaSelf : VectorMeta :=
  { postId := 1, title := "t1", slug := "s1", state := "published",
    publishedAt := some 0 }

/-- Vector metadata of a published neighbor whose effective publish time
(999) lies in the future of any present time below it. -/
def cxMetaFuture : VectorMeta :=
  { postId := 2, title := "t2", slug := "s2", state := "published",
    publishedAt := some 999 }

/-- A vector index holding the source vector and, as nearest neighbor, a
published but future-dated post; it honors the `state = "published"`
metadata filter and returns matches ranked by descending score. -/
def cxVz6 : Vectorize :=
  { getByIds := fun _ => .ok [{ id := "post-1", values := some [1, 0] }]
    query := fun _ _ _ => .ok [{ id := "post-1", score := 10,
                                 metadata := cxMetaSelf },
                               { id := "post-2", score := 9,
                                 metadata := cxMetaFuture }] }

/-- An unreachable vector index. -/
def cxVzErr : Vectorize :=
  { getByIds := fun _ => .error "index unavailable"
    query := fun _ _ _ => .error "index unavailable" }

/-- Listing fixture: a scheduled post (published, created at 99) and a
draft, listed at present time 5. -/
def wDb7 : DB :=
  { posts := [mkPost 3 "f" "published" "ko" none 99 0,
              mkPost 4 "d" "draft" "ko" none 0 0]
    comments := []
    tags := []
    postTags := [] }

/-- The public page over `wDb7` at time 5: empty. -/
def wRes7pub : Paginated PostListItem :=
  { content := [], totalElements := 0, pageNumber := 0, pageSize := 10 }

/-- The admin page over `wDb7` at time 5. -/
def wRes7adm : Paginated PostListItem :=
  { content := [
      { id := 3, slug := "f", title := "f", summary := some "s", tags := [],
        state := some "scheduled", locale := "ko", originalPostId := none,
        createdAt := 99, updatedAt := 99, views := 0 },
      { id := 4, slug := "d", title := "d", summary := some "s", tags := [],
        state := some "draft", locale := "ko", originalPostId := none,
        createdAt := 0, updatedAt := 0, views := 0 }]
    totalElements := 2
    pageNumber := 0
    pageSize := 10 }

/-- The translation-linking invariant C4 claims for every reachable
state: a non-null `original_post_id` references an existing identity
post (one whose own `original_post_id` is null) — translations never
chain. -/
def ChainFree (db : DB) : Prop :=
  ∀ p ∈ db.posts, ∀ oid, p.original_post_id = some oid →
    ∃ q ∈ db.posts, q.id = oid ∧ q.original_post_id = none

/-- Strengthened induction invariant for the restricted operations:
chain-freedom plus "every Korean-locale post is an identity post"
(the translate operation only targets Korean sources). -/
def InvC4 (db : DB) : Prop :=
  ChainFree db ∧ ∀ p ∈ db.posts, p.locale = "ko" → p.original_post_id = none

/-- Requests driving the C4 counterexample: an identity post, then two
`createPost` requests whose bodies carry an explicit `originalPostId`
(the admin route passes the parsed JSON body straight through). -/
def r4a : PostReq :=
  { title := "a", content := "c", summary := some "s", state := "published" }

def r4b : PostReq :=
  { title := "b", content := "c", summary := some "s", state := "draft",
    locale := "en", originalPostId := some 1 }

def r4c : PostReq :=
  { title := "cc", content := "c", summary := some "s", state := "draft",
    locale := "en", originalPostId := some 2 }

def cxP4a : Post :=
  { id := 1, slug := "a", title := "a", content := "c", summary := some "s",
    state := "published", locale := "ko", original_post_id := none,
    created_at := 10, updated_at := 10, views := 0 }

def cxP4b : Post :=
  { id := 2, slug := "b", title := "b", content := "c", summary := some "s",
    state := "draft", locale := "en", original_post_id := some 1,
    created_at := 20, updated_at := 20, views := 0 }

def cxP4c : Post :=
  { id := 3, slug := "cc", title := "cc", content := "c",
    summary := some "s", state := "draft", locale := "en",
    original_post_id := some 2, created_at := 30, updated_at := 30,
    views := 0 }

def cxDb4a : DB :=
  { posts := [cxP4a], comments := [], tags := [], postTags := [] }

def cxDb4b : DB :=
  { posts := [cxP4a, cxP4b], comments := [], tags := [], postTags := [] }

def cxDb4c : DB :=
  { posts := [cxP4a, cxP4b, cxP4c], comments := [], tags := [], postTags := [] }

/-- The English translation row the translate operation produces from
`cxP4a` under the always-answering oracle. -/
def cxP4t : Post :=
  { id := 2, slug := "a", title := "T", content := "C", summary := some "S",
    state := "draft", locale := "en", original_post_id := some 1,
    created_at := 10, updated_at := 20, views := 0 }

def cxDb4t : DB :=
  { posts := [cxP4a, cxP4t], comments := [], tags := [], postTags := [] }

/-! ## Lemmas about the sort and point-query models -/

theorem insLe_perm (le : α → α → Bool) (a : α) (l : List α) :
    List.Perm (insLe le a l) (a :: l) := by
  induction l with
  | nil => simp [insLe]
  | cons b l ih =>
    simp only [insLe]
    split
    · exact (ih.cons b).trans (List.Perm.swap a b l)
    · exact List.Perm.refl _

theorem sortLe_foldl_perm (le : α → α → Bool) (l acc : List α) :
    List.Perm (l.foldl (fun acc a => insLe le a acc) acc) (acc ++ l) := by
  induction l generalizing acc with
  | nil => simp
  | cons a l ih =>
    simp only [List.foldl_cons]
    refine (ih (insLe le a acc)).trans ?_
    exact (((insLe_perm le a acc).append_right l)).trans List.perm_middle.symm

theorem sortLe_perm (le : α → α → Bool) (l : List α) :
    List.Perm (sortLe le l) l := by
  simpa using sortLe_foldl_perm le l []

theorem mem_sortLe_iff (le : α → α → Bool) (l : List α) (a : α) :
    a ∈ sortLe le l ↔ a ∈ l :=
  (sortLe_perm le l).mem_iff

theorem length_sortLe (le : α → α → Bool) (l : List α) :
    (sortLe le l).length = l.length :=
  (sortLe_perm le l).length_eq

theorem insLe_sorted (le : α → α → Bool)
    (htot : ∀ a b, le a b = true ∨ le b a = true)
    (htrans : ∀ a b c, le a b = true → le b c = true → le a c = true)
    (a : α) (l : List α) (hl : l.Pairwise (fun x y => le x y = true)) :
    (insLe le a l).Pairwise (fun x y => le x y = true) := by
  induction l with
  | nil => simp [insLe]
  | cons b l ih =>
    rcases hl with - | ⟨hb, hl⟩
    simp only [insLe]
    split
    · rename_i hba
      refine List.Pairwise.cons ?_ (ih hl)
      intro x hx
      rcases List.mem_cons.mp (((insLe_perm le a l).mem_iff).mp hx) with h | h
      · exact h ▸ hba
      · exact hb x h
    · rename_i hba
      have hab : le a b = true := by
        rcases htot a b with h | h
        · exact h
        · exact absurd h hba
      refine List.Pairwise.cons ?_ (List.Pairwise.cons hb hl)
      intro x hx
      rcases List.mem_cons.mp hx with h | h
      · exact h ▸ hab
      · exact htrans a b x hab (hb x h)

theorem sortLe_sorted (le : α → α → Bool)
    (htot : ∀ a b, le a b = true ∨ le b a = true)
    (htrans : ∀ a b c, le a b = true → le b c = true → le a c = true)
    (l : List α) :
    (sortLe le l).Pairwise (fun x y => le x y = true) := by
  suffices h : ∀ (l acc : List α),
      acc.Pairwise (fun x y => le x y = true) →
      (l.foldl (fun acc a => insLe le a acc) acc).Pairwise
        (fun x y => le x y = true) by
    exact h l [] (by simp)
  intro l
  induction l with
  | nil => intro acc hacc; simpa using hacc
  | cons a l ih =>
    intro acc hacc
    exact ih (insLe le a acc) (insLe_sorted le htot htrans a acc hacc)

/-! ## Point-query (`List.find?`) lemmas -/

theorem map_congr_mem {f g : α → β} :
    ∀ (l : List α), (∀ a ∈ l, f a = g a) → l.map f = l.map g := by
  intro l
  induction l with
  | nil => intro _; rfl
  | cons a l ih =>
    intro h
    simp only [List.map_cons]
    rw [h a (List.mem_cons_self a l), ih (fun b hb => h b (List.mem_cons_of_mem a hb))]

theorem map_id_mem {f : α → α} :
    ∀ (l : List α), (∀ a ∈ l, f a = a) → l.map f = l := by
  intro l
  induction l with
  | nil => intro _; rfl
  | cons a l ih =>
    intro h
    simp only [List.map_cons]
    rw [h a (List.mem_cons_self a l), ih (fun b hb => h b (List.mem_cons_of_mem a hb))]

/-- Point lookup `SELECT ... WHERE id = ?` on a keyed list returns the
unique row carrying that id. -/
theorem find?_id_eq_some {l : List Post}
    (hu : l.Pairwise (fun a b => a.id ≠ b.id)) {p : Post} (hp : p ∈ l) :
    l.find? (fun q => q.id == p.id) = some p := by
  induction l with
  | nil => cases hp
  | cons a l ih =>
    rcases hu with - | ⟨ha, hu⟩
    rcases List.mem_cons.mp hp with h | h
    · subst h
      exact List.find?_cons_of_pos l (by simp)
    · rw [List.find?_cons_of_neg l (by simpa using ha p h)]
      exact ih hu h

/-- `SELECT id FROM posts WHERE id = ? AND state = 'published'` on a
keyed list: found exactly when the unique row with that id is published. -/
theorem find?_id_state_eq {l : List Post}
    (hu : l.Pairwise (fun a b => a.id ≠ b.id)) {p : Post} (hp : p ∈ l) :
    l.find? (fun q => q.id == p.id && q.state == "published") =
      if p.state = "published" then some p else none := by
  induction l with
  | nil => cases hp
  | cons a l ih =>
    rcases hu with - | ⟨ha, hu⟩
    rcases List.mem_cons.mp hp with h | h
    · subst h
      by_cases hs : p.state = "published"
      · rw [if_pos hs]
        exact List.find?_cons_of_pos l (by simp [hs])
      · rw [if_neg hs, List.find?_cons_of_neg l (by simp [hs]),
          List.find?_eq_none.mpr]
        intro x hx
        simp only [Bool.and_eq_true, beq_iff_eq, not_and]
        intro hid
        exact absurd hid.symm (ha x hx)
    · rw [List.find?_cons_of_neg l (by simp [ha p h])]
      exact ih hu h

/-- Point lookup commutes with an id-preserving row update (`UPDATE`
does not change primary keys). -/
theorem find?_map_id_pres (f : Post → Post) (hf : ∀ p, (f p).id = p.id)
    (l : List Post) (i : Nat) :
    (l.map f).find? (fun q => q.id == i) =
      (l.find? (fun q => q.id == i)).map f := by
  induction l with
  | nil => rfl
  | cons a l ih =>
    by_cases h : (a.id == i) = true
    · have hfa : ((f a).id == i) = true := by rw [hf]; exact h
      simp only [List.map_cons, List.find?, h, hfa]
      rfl
    · have h' : (a.id == i) = false := by simpa using h
      have hfa : ((f a).id == i) = false := by rw [hf]; exact h'
      simp only [List.map_cons, List.find?, h', hfa]
      exact ih

/-! ## Supporting lemmas about keyed rows -/

theorem id_inj_of_unique {l : List Post}
    (hu : l.Pairwise (fun a b => a.id ≠ b.id)) {p q : Post}
    (hp : p ∈ l) (hq : q ∈ l) (h : p.id = q.id) : p = q := by
  induction l with
  | nil => cases hp
  | cons a l ih =>
    rcases hu with - | ⟨ha, hu⟩
    rcases List.mem_cons.mp hp with hp1 | hp1 <;>
      rcases List.mem_cons.mp hq with hq1 | hq1
    · exact hp1.trans hq1.symm
    · subst hp1; exact absurd h (ha q hq1)
    · subst hq1; exact absurd h.symm (ha p hp1)
    · exact ih hu hp1 hq1

/-- `resolveId` only reads `id` and `original_post_id`, which the
guarded view-count bump leaves unchanged. -/
theorem resolveId_bump (tid : Nat) (p : Post) :
    resolveId (if p.id == tid && p.state == "published" then
      { p with views := p.views + 1 } else p) = resolveId p := by
  split <;> rfl

theorem id_bump (tid : Nat) (p : Post) :
    (if p.id == tid && p.state == "published" then
      { p with views := p.views + 1 } else p).id = p.id := by
  split <;> rfl

/-! ## C1 — view counts unify on the identity row -/

/-- C1, counterexample.  The claim quantifies over every existing post,
but the increment statement is guarded by `state = 'published'` on the
identity row: with a draft identity post (id 1) and its published
translation (id 2), incrementing views via the translation leaves every
stored counter unchanged — no counter is incremented on the identity
row, contradicting the claim as stated. -/
theorem c1_counterexample :
    incrementViews cxDb1 2 = cxDb1 ∧
    getViews (incrementViews cxDb1 2) 1 = some 0 ∧
    getViews (incrementViews cxDb1 2) 2 = some 0 := by decide

/-- C1 (amended: provided the identity row is published).  For any two
locale variants `t`, `u` of the same identity post `P` (each variant
resolving to `P.id`; `P` published), incrementing via `t` bumps exactly
the rows carrying the identity id — never a translation's own row — and
reading via any variant returns the identity row's counter, so the
count read via `u` (or `P`, itself a variant) after incrementing via `t`
is the identity's old count plus one. -/
theorem c1_views_unify_on_identity (db : DB) (hu : UniquePostIds db)
    (P t u : Post) (hP : P ∈ db.posts) (hPorig : P.original_post_id = none)
    (hPpub : P.state = "published")
    (ht : t ∈ db.posts) (htres : resolveId t = P.id)
    (hv : u ∈ db.posts) (hures : resolveId u = P.id) :
    (incrementViews db t.id).posts =
      db.posts.map (fun p =>
        if p.id == P.id then { p with views := p.views + 1 } else p) ∧
    getViews db u.id = some P.views ∧
    getViews (incrementViews db t.id) u.id = some (P.views + 1) := by
  have hft : findById db t.id = some t := find?_id_eq_some hu ht
  have hfu : findById db u.id = some u := find?_id_eq_some hu hv
  have hfP : db.posts.find? (fun q => q.id == P.id) = some P :=
    find?_id_eq_some hu hP
  have hinc : incrementViews db t.id =
      { db with posts := db.posts.map (fun p =>
          if p.id == P.id && p.state == "published" then
            { p with views := p.views + 1 } else p) } := by
    simp only [incrementViews, hft, htres]
  refine ⟨?_, ?_, ?_⟩
  · rw [hinc]
    apply map_congr_mem
    intro p hp
    by_cases hid : (p.id == P.id) = true
    · have : p = P := id_inj_of_unique hu hp hP (by simpa using hid)
      subst this
      simp [hPpub, hid]
    · have hid' : (p.id == P.id) = false := by simpa using hid
      simp [hid']
  · simp only [getViews, hfu, hures, hfP, Option.map_some']
  · rw [hinc]
    have hfid : ∀ p : Post, (if p.id == P.id && p.state == "published" then
        { p with views := p.views + 1 } else p).id = p.id := id_bump P.id
    simp only [getViews, findById, find?_map_id_pres _ hfid,
      find?_id_eq_some hu hv, Option.map_some', resolveId_bump, hures, hfP]
    simp [hPpub]

/-- Witness for C1 (amended): a published identity (id 1, 5 views) with
two translations (ids 2 and 3); incrementing via id 2 yields 6 when
read via id 3. -/
theorem c1_views_unify_on_identity_witness :
    getViews wDb1 3 = some 5 ∧
    getViews (incrementViews wDb1 2) 3 = some 6 := by
  have h := c1_views_unify_on_identity wDb1 (by decide)
    wP1 wT1 wU1 (by decide) (by decide) (by decide) (by decide) (by decide)
    (by decide) (by decide)
  exact ⟨h.2.1, h.2.2⟩

/-! ## C10 — incrementing views on an unpublished identity is a no-op -/

/-- C10.  For any existing post `p` whose identity row `q` is not in
published state, `incrementPostViews` succeeds, leaves the whole store
(in particular every stored view count) unchanged, and returns the
identity row's current, unincremented count; and for any id with no row
at all it raises the not-found error. -/
theorem c10_increment_unpublished_noop (db : DB) (hu : UniquePostIds db)
    (p q : Post) (hp : p ∈ db.posts) (hq : q ∈ db.posts)
    (hqid : q.id = resolveId p) (hqs : q.state ≠ "published") :
    incrementViews db p.id = db ∧
    incrementPostViews db p.id = .ok (db, q.views) ∧
    (∀ j, findById db j = none →
      incrementPostViews db j = .error (.notFound "Post not found")) := by
  have hfp : findById db p.id = some p := find?_id_eq_some hu hp
  have hfq : db.posts.find? (fun x => x.id == q.id) = some q :=
    find?_id_eq_some hu hq
  have hmap : db.posts.map (fun r =>
      if r.id == resolveId p && r.state == "published" then
        { r with views := r.views + 1 } else r) = db.posts := by
    apply map_id_mem
    intro r hr
    by_cases hid : (r.id == resolveId p) = true
    · have : r = q := id_inj_of_unique hu hr hq (by simpa [hqid] using hid)
      subst this
      have : (r.state == "published") = false := by
        simpa using hqs
      simp [this]
    · have hid' : (r.id == resolveId p) = false := by simpa using hid
      simp [hid']
  have hinc : incrementViews db p.id = db := by
    simp only [incrementViews, hfp, hmap]
  refine ⟨hinc, ?_, ?_⟩
  · have hgv : getViews db p.id = some q.views := by
      simp only [getViews, hfp, ← hqid, hfq, Option.map_some']
    simp only [incrementPostViews, hinc, hgv]
  · intro j hj
    have hincj : incrementViews db j = db := by
      simp only [incrementViews, hj]
    have hgvj : getViews db j = none := by
      simp only [getViews, hj]
    simp only [incrementPostViews, hincj, hgvj]

/-- Witness for C10: in the draft-identity fixture, incrementing via the
published translation (id 2) succeeds, changes nothing, and returns the
identity's count 0, while id 3 (no row) yields the not-found error. -/
theorem c10_increment_unpublished_noop_witness :
    incrementViews cxDb1 2 = cxDb1 ∧
    incrementPostViews cxDb1 2 = .ok (cxDb1, 0) ∧
    incrementPostViews cxDb1 3 = .error (.notFound "Post not found") := by
  have h := c10_increment_unpublished_noop cxDb1 (by decide)
    (mkPost 2 "a-en" "published" "en" (some 1) 0 0)
    (mkPost 1 "a" "draft" "ko" none 0 0) (by decide) (by decide)
    (by decide) (by decide)
  exact ⟨h.1, h.2.1, h.2.2 3 (by decide)⟩

/-! ## C2 — one comment thread per identity post -/

/-- C2.  Creating a comment via any (published) locale variant `t`
persists it against the identity id `oid`; listing via any (published)
variant `u` of the same identity resolves to `oid` and returns the same
list: all of the identity's comments (a permutation of the filtered
store), in chronological order, containing the new comment. -/
theorem c2_comment_thread_unified (db : DB) (hu : UniquePostIds db)
    (t u : Post) (oid : Nat)
    (ht : t ∈ db.posts) (htp : t.state = "published")
    (htres : resolveId t = oid)
    (hv : u ∈ db.posts) (hup : u.state = "published")
    (hures : resolveId u = oid)
    (content author cid : String) (now : Nat)
    (hvalid : validateCreateComment content author = []) :
    ∃ db2 resp,
      createComment db t.id content author cid now = .ok (db2, resp) ∧
      resp.postId = oid ∧
      db2.posts = db.posts ∧
      db2.comments = db.comments ++ [⟨cid, content, author, now, oid⟩] ∧
      ∃ L, getCommentsByPostId db2 u.id = .ok L ∧
        getCommentsByPostId db2 t.id = .ok L ∧
        commentToResponse ⟨cid, content, author, now, oid⟩ ∈ L ∧
        L.Pairwise (fun a b => a.createdAt ≤ b.createdAt) ∧
        List.Perm L ((db2.comments.filter
          (fun c => c.post_id == oid)).map commentToResponse) := by
  have hft : findById db t.id = some t := find?_id_eq_some hu ht
  have hfu : findById db u.id = some u := find?_id_eq_some hu hv
  have hex_t : postExistsPublished db t.id = true := by
    unfold postExistsPublished
    rw [find?_id_state_eq hu ht, if_pos htp]
    rfl
  have hex_u : postExistsPublished db u.id = true := by
    unfold postExistsPublished
    rw [find?_id_state_eq hu hv, if_pos hup]
    rfl
  have horig_t : getOriginalPostId db t.id = some oid := by
    simp only [getOriginalPostId, hft, Option.map_some', htres]
  have horig_u : getOriginalPostId db u.id = some oid := by
    simp only [getOriginalPostId, hfu, Option.map_some', hures]
  refine ⟨{ db with comments := db.comments ++
      [⟨cid, content, author, now, oid⟩] },
    commentToResponse ⟨cid, content, author, now, oid⟩, ?_, rfl, rfl, rfl, ?_⟩
  · simp [createComment, hex_t, horig_t, hvalid]
  · set db2 : DB := { db with comments := db.comments ++
      [⟨cid, content, author, now, oid⟩] } with hdb2
    have hex_t2 : postExistsPublished db2 t.id = true := hex_t
    have hex_u2 : postExistsPublished db2 u.id = true := hex_u
    have horig_t2 : getOriginalPostId db2 t.id = some oid := horig_t
    have horig_u2 : getOriginalPostId db2 u.id = some oid := horig_u
    refine ⟨(commentsByPostId db2 oid).map commentToResponse, ?_, ?_, ?_, ?_, ?_⟩
    · simp [getCommentsByPostId, hex_u2, horig_u2]
    · simp [getCommentsByPostId, hex_t2, horig_t2]
    · apply List.mem_map_of_mem
      rw [commentsByPostId,
        mem_sortLe_iff, List.mem_filter]
      refine ⟨List.mem_append_right _ (List.mem_singleton.mpr rfl), by simp⟩
    · have hs := sortLe_sorted
        (fun a b : Comment => decide (a.created_at ≤ b.created_at))
        (fun a b => by
          rcases Nat.le_total a.created_at b.created_at with h | h
          · exact Or.inl (decide_eq_true h)
          · exact Or.inr (decide_eq_true h))
        (fun a b c hab hbc => decide_eq_true
          (Nat.le_trans (of_decide_eq_true hab) (of_decide_eq_true hbc)))
        (db2.comments.filter (fun c => c.post_id == oid))
      rw [List.pairwise_map]
      exact (hs.imp (fun h => of_decide_eq_true h))
    · exact List.Perm.map commentToResponse (sortLe_perm _ _)

/-- Witness for C2: in the published fixture `wDb1`, commenting via the
English translation (id 2) and listing via the identity (id 1) shows
the comment in the unified, chronologically ordered thread. -/
theorem c2_comment_thread_unified_witness :
    ∃ db2 resp,
      createComment wDb1 2 "Nice post!" "Alice" "u-1" 7 = .ok (db2, resp) ∧
      resp.postId = 1 ∧
      db2.posts = wDb1.posts ∧
      db2.comments = wDb1.comments ++ [⟨"u-1", "Nice post!", "Alice", 7, 1⟩] ∧
      ∃ L, getCommentsByPostId db2 1 = .ok L ∧
        getCommentsByPostId db2 2 = .ok L ∧
        commentToResponse ⟨"u-1", "Nice post!", "Alice", 7, 1⟩ ∈ L ∧
        L.Pairwise (fun a b => a.createdAt ≤ b.createdAt) ∧
        List.Perm L ((db2.comments.filter
          (fun c => c.post_id == 1)).map commentToResponse) := by
  have h := c2_comment_thread_unified wDb1 (by decide) wT1 wP1 1
    (by decide) (by decide) (by decide) (by decide) (by decide) (by decide)
    "Nice post!" "Alice" "u-1" 7 (by decide)
  exact h

/-! ## C3 — what deleting an identity post removes -/

/-- C3, counterexample.  The claim says deleting an identity post
removes "any translations pointing to it (store-level cascade), so that
fetching any of those translations ... afterward yields not-found" —
but `original_post_id` is declared `ON DELETE SET NULL`, not `CASCADE`:
after deleting identity 1, its translation (id 2) is still fetchable,
now with a nulled back-reference. -/
theorem c3_counterexample :
    deletePost cxDb3 1 = .ok (dbDelete cxDb3 1, 1) ∧
    findById (dbDelete cxDb3 1) 2 =
      some (mkPost 2 "a-en" "published" "en" none 0 0) := by decide

/-- C3 (amended).  Deleting a post fails with not-found if the post does
not exist; otherwise deleting an identity post removes its tag
associations and its comments (store-level cascade), so listing its
comments afterward yields not-found — but translations pointing to it
are NOT removed: their `original_post_id` is set to null
(`ON DELETE SET NULL`), so fetching a translation afterward still
succeeds, the row having become an identity post. -/
theorem c3_delete_cascade_behavior (db : DB) (hu : UniquePostIds db)
    (p : Post) (hp : p ∈ db.posts) (hporig : p.original_post_id = none) :
    deletePost db p.id = .ok (dbDelete db p.id, p.id) ∧
    findById (dbDelete db p.id) p.id = none ∧
    (∀ c ∈ (dbDelete db p.id).comments, c.post_id ≠ p.id) ∧
    (∀ pt ∈ (dbDelete db p.id).postTags, pt.1 ≠ p.id) ∧
    getCommentsByPostId (dbDelete db p.id) p.id =
      .error (.notFound "Post not found") ∧
    (∀ tr ∈ db.posts, tr.original_post_id = some p.id →
      findById (dbDelete db p.id) tr.id =
        some { tr with original_post_id := none }) ∧
    (∀ j, findById db j = none →
      deletePost db j = .error (.notFound "Post not found")) := by
  have hfp : findById db p.id = some p := find?_id_eq_some hu hp
  have hfixid : ∀ q : Post, (if q.original_post_id == some p.id then
      { q with original_post_id := none } else q).id = q.id := by
    intro q; split <;> rfl
  have hnotmem : ∀ x ∈ (dbDelete db p.id).posts, ¬(x.id == p.id) = true := by
    intro x hx
    rcases List.mem_map.mp hx with ⟨y, hy, rfl⟩
    have hyid : ¬(y.id == p.id) = true := by
      simpa using (List.mem_filter.mp hy).2
    rw [hfixid y]
    exact hyid
  have hfid_none : findById (dbDelete db p.id) p.id = none :=
    List.find?_eq_none.mpr hnotmem
  refine ⟨?_, hfid_none, ?_, ?_, ?_, ?_, ?_⟩
  · simp only [deletePost, hfp]
  · intro c hc
    have := (List.mem_filter.mp hc).2
    simpa using this
  · intro pt hpt
    have := (List.mem_filter.mp hpt).2
    simpa using this
  · have hfind : (dbDelete db p.id).posts.find?
        (fun x => x.id == p.id && x.state == "published") = none := by
      apply List.find?_eq_none.mpr
      intro x hx
      have hne := hnotmem x hx
      simp only [Bool.and_eq_true, not_and]
      intro h
      exact absurd h hne
    have hpub : postExistsPublished (dbDelete db p.id) p.id = false := by
      unfold postExistsPublished
      rw [hfind]
      rfl
    simp [getCommentsByPostId, hpub]
  · intro tr htr horig
    have hne : tr.id ≠ p.id := by
      intro h
      have : tr = p := id_inj_of_unique hu htr hp h
      rw [this, hporig] at horig
      cases horig
    have hufilt : (db.posts.filter
        (fun q => !(q.id == p.id))).Pairwise (fun a b => a.id ≠ b.id) :=
      List.Pairwise.sublist (List.filter_sublist _) hu
    have htrfilt : tr ∈ db.posts.filter (fun q => !(q.id == p.id)) :=
      List.mem_filter.mpr ⟨htr, by simpa using hne⟩
    show ((db.posts.filter (fun q => !(q.id == p.id))).map (fun q =>
        if q.original_post_id == some p.id then
          { q with original_post_id := none } else q)).find?
      (fun q => q.id == tr.id) = some { tr with original_post_id := none }
    rw [find?_map_id_pres _ hfixid, find?_id_eq_some hufilt htrfilt]
    simp [horig]
  · intro j hj
    simp only [deletePost, hj]

/-- Witness for C3 (amended), at the concrete fixture: deleting identity
1 succeeds, its row/comments/tag links are gone (comment listing 404s),
and the translation survives with `original_post_id = null`. -/
theorem c3_delete_cascade_behavior_witness :
    deletePost cxDb3 1 = .ok (dbDelete cxDb3 1, 1) ∧
    findById (dbDelete cxDb3 1) 1 = none ∧
    getCommentsByPostId (dbDelete cxDb3 1) 1 =
      .error (.notFound "Post not found") ∧
    findById (dbDelete cxDb3 1) 2 =
      some { mkPost 2 "a-en" "published" "en" (some 1) 0 0 with
             original_post_id := none } := by
  have h := c3_delete_cascade_behavior cxDb3 (by decide)
    (mkPost 1 "a" "published" "ko" none 0 0) (by decide) (by decide)
  exact ⟨h.1, h.2.1, h.2.2.2.2.1,
    h.2.2.2.2.2.1 (mkPost 2 "a-en" "published" "en" (some 1) 0 0)
      (by decide) (by decide)⟩

/-! ## C9 — the denormalized tag counter is not maintained -/

/-- C9 (code bug).  The claim (and the repository's own API
documentation: `tags.post_count` = "Number of associated posts", with
`GET /tags` listing only tags whose `post_count > 0`) requires the
counter to track associations.  But `PostService.associateTags` inserts
tag rows with `post_count = 0` and never updates the counter on
associate or dissociate: after creating a post with one tag, the tag
row carries `post_count = 0` while one post is associated with it. -/
theorem c9_tag_count_not_maintained :
    createPost emptyDB c9req 1 = .ok (c9DbAfter, 1) ∧
    ∀ t ∈ c9DbAfter.tags, t.post_count ≠
      (c9DbAfter.postTags.filter (fun pt => pt.2 == t.id)).length := by
  decide

/-! ## General lemmas about `createPost` -/

theorem associateTags_fields (tags : List String) :
    ∀ (db : DB) (postId ts : Nat),
      (associateTags db postId tags ts).posts = db.posts ∧
      (associateTags db postId tags ts).comments = db.comments := by
  induction tags with
  | nil => intro db postId ts; exact ⟨rfl, rfl⟩
  | cons a tags ih =>
    intro db postId ts
    rw [associateTags, List.foldl_cons]
    rcases hfound : db.tags.find? (fun t => t.name == a) with - | t
    · have := ih { db with
        tags := db.tags ++ [{ id := nextTagId db, name := a,
                              created_at := ts, post_count := 0 }],
        postTags := db.postTags ++ [(postId, nextTagId db)] } postId ts
      rw [associateTags] at this
      simpa [hfound] using this
    · have := ih { db with postTags := db.postTags ++ [(postId, t.id)] }
        postId ts
      rw [associateTags] at this
      simpa [hfound] using this

theorem foldl_max_le_init (l : List Post) (acc : Nat) :
    acc ≤ l.foldl (fun m q => max m q.id) acc := by
  induction l generalizing acc with
  | nil => exact Nat.le_refl acc
  | cons a l ih =>
    exact Nat.le_trans (Nat.le_max_left acc a.id) (ih (max acc a.id))

theorem mem_le_foldl_max (l : List Post) (p : Post) (hp : p ∈ l) :
    ∀ acc, p.id ≤ l.foldl (fun m q => max m q.id) acc := by
  induction l with
  | nil => cases hp
  | cons a l ih =>
    intro acc
    rcases List.mem_cons.mp hp with h | h
    · subst h
      exact Nat.le_trans (Nat.le_max_right acc p.id)
        (foldl_max_le_init l (max acc p.id))
    · exact ih h (max acc a.id)

/-- `AUTOINCREMENT` allocates an id no existing row carries. -/
theorem nextId_fresh (db : DB) : ∀ p ∈ db.posts, p.id ≠ nextId db := by
  intro p hp h
  have := mem_le_foldl_max db.posts p hp 0
  rw [h] at this
  exact Nat.not_succ_le_self _ this

/-- Normal form of a successful `createPost`. -/
theorem createPost_ok (db : DB) (r : PostReq) (now : Nat)
    (hv : validatePostRequest r = none)
    (hfree : findBySlugAndLocale db (r.slug.getD (generateSlug r.title))
      r.locale = none) :
    ∃ db1, createPost db r now = .ok (db1, nextId db) ∧
      db1.posts = db.posts ++ [newPost db r now] ∧
      db1.comments = db.comments := by
  refine ⟨associateTags { db with posts := db.posts ++ [newPost db r now] }
    (nextId db) r.tags now, ?_, ?_, ?_⟩
  · simp [createPost, hv, hfree]
  · exact (associateTags_fields r.tags _ (nextId db) now).1
  · exact (associateTags_fields r.tags _ (nextId db) now).2

/-! ## Lemmas about the derived slug's shape -/

theorem collapseRuns_chars :
    ∀ (l : List Char) (b : Bool) (c : Char), c ∈ collapseRuns l b →
      isLowerAlnum c = true ∨ c = '-' := by
  intro l
  induction l with
  | nil => intro b c h; cases h
  | cons a l ih =>
    intro b c h
    by_cases ha : isLowerAlnum a
    · rw [collapseRuns, if_pos ha] at h
      rcases List.mem_cons.mp h with h1 | h1
      · exact Or.inl (h1 ▸ ha)
      · exact ih false c h1
    · rw [collapseRuns, if_neg ha] at h
      by_cases hb : b
      · rw [if_pos hb] at h
        exact ih true c h
      · rw [if_neg hb] at h
        rcases List.mem_cons.mp h with h1 | h1
        · exact Or.inr h1
        · exact ih true c h1

theorem dropWhile_hyphen_head :
    ∀ (l : List Char) (c : Char),
      (l.dropWhile (· == '-')).head? = some c → ¬c = '-' := by
  intro l
  induction l with
  | nil => intro c h; cases h
  | cons a l ih =>
    intro c h
    by_cases ha : (a == '-') = true
    · rw [List.dropWhile_cons, if_pos ha] at h
      exact ih c h
    · rw [List.dropWhile_cons, if_neg ha] at h
      cases h
      simpa using ha

/-! ## C8 — derived slugs and `(slug, locale)` collisions -/

/-- C8, counterexample.  The second create with a colliding derived
`(slug, locale)` pair is rejected, but with `ValidationError("Slug
already exists")` (HTTP 400) — not with the `ConflictError` category
that "fails with a conflict" names (the repository's own API_SPEC.md
lists no 409 either). -/
theorem c8_counterexample :
    createPost emptyDB c8req 10 = .ok (c8Db1, 1) ∧
    createPost c8Db1 c8req 20 = .error (.validation "Slug already exists") ∧
    Err.isConflict (.validation "Slug already exists") = false := by decide

/-- C8 (amended: the collision is rejected with a validation error, not
a conflict error).  With no slug supplied, the created row's slug is
`generateSlug title` — lowercased, non-alphanumeric runs collapsed to
hyphens, no leading/trailing hyphen; a second create whose derived
`(slug, locale)` pair collides fails with
`ValidationError("Slug already exists")`, while the same derived slug
in a different locale succeeds. -/
theorem c8_slug_derivation_and_collision (db : DB) (r r2 r3 : PostReq)
    (now now2 now3 : Nat)
    (hv : validatePostRequest r = none) (hns : r.slug = none)
    (hfree : findBySlugAndLocale db (generateSlug r.title) r.locale = none)
    (hv2 : validatePostRequest r2 = none) (hns2 : r2.slug = none)
    (ht2 : generateSlug r2.title = generateSlug r.title)
    (hl2 : r2.locale = r.locale)
    (hv3 : validatePostRequest r3 = none) (hns3 : r3.slug = none)
    (ht3 : generateSlug r3.title = generateSlug r.title)
    (hl3 : r3.locale ≠ r.locale)
    (hfree3 : findBySlugAndLocale db (generateSlug r.title) r3.locale = none) :
    ∃ db1, createPost db r now = .ok (db1, nextId db) ∧
      findById db1 (nextId db) = some (newPost db r now) ∧
      (newPost db r now).slug = generateSlug r.title ∧
      (∀ c ∈ (generateSlug r.title).data, isLowerAlnum c = true ∨ c = '-') ∧
      (∀ c, (generateSlug r.title).data.head? = some c → c ≠ '-') ∧
      (∀ c, (generateSlug r.title).data.getLast? = some c → c ≠ '-') ∧
      createPost db1 r2 now2 = .error (.validation "Slug already exists") ∧
      (∃ db2, createPost db1 r3 now3 = .ok (db2, nextId db1)) := by
  obtain ⟨db1, hok, hposts, hcom⟩ :=
    createPost_ok db r now hv (by rw [hns]; exact hfree)
  have hslug : (newPost db r now).slug = generateSlug r.title := by
    simp [newPost, hns]
  have hnewid : (newPost db r now).id = nextId db := rfl
  refine ⟨db1, hok, ?_, hslug, ?_, ?_, ?_, ?_, ?_⟩
  · rw [findById, hposts, List.find?_append]
    rw [List.find?_eq_none.mpr (fun x hx => by
      simpa using nextId_fresh db x hx)]
    rw [Option.none_or]
    rw [List.find?_cons_of_pos _ (by simp [hnewid])]
  · intro c hc
    have h1 : c ∈ ((collapseRuns (r.title.data.map Char.toLower)
        false).dropWhile (· == '-')).reverse.dropWhile (· == '-') := by
      simpa [generateSlug] using hc
    have h2 := (List.dropWhile_sublist (· == '-')).mem
      (List.mem_reverse.mp ((List.dropWhile_sublist (· == '-')).mem h1))
    exact collapseRuns_chars _ false c h2
  · intro c hc
    have h0 : (((collapseRuns (r.title.data.map Char.toLower)
        false).dropWhile (· == '-')).reverse.dropWhile
        (· == '-')).getLast? = some c := by
      have := hc
      rw [show (generateSlug r.title).data =
        ((((collapseRuns (r.title.data.map Char.toLower)
          false).dropWhile (· == '-')).reverse.dropWhile
          (· == '-'))).reverse from rfl, List.head?_reverse] at this
      exact this
    have hCne : (((collapseRuns (r.title.data.map Char.toLower)
        false).dropWhile (· == '-')).reverse.dropWhile
        (· == '-')) ≠ [] := by
      intro h
      rw [h] at h0
      cases h0
    obtain ⟨t, ht_eq⟩ := List.dropWhile_suffix
      (l := ((collapseRuns (r.title.data.map Char.toLower)
        false).dropWhile (· == '-')).reverse) (· == '-')
    have h3 : (((collapseRuns (r.title.data.map Char.toLower)
        false).dropWhile (· == '-')).reverse).getLast? = some c := by
      rw [← ht_eq, List.getLast?_append_of_ne_nil t hCne]
      exact h0
    rw [List.getLast?_reverse] at h3
    exact dropWhile_hyphen_head _ c h3
  · intro c hc
    have h0 : (((collapseRuns (r.title.data.map Char.toLower)
        false).dropWhile (· == '-')).reverse.dropWhile
        (· == '-')).head? = some c := by
      have := hc
      rw [show (generateSlug r.title).data =
        ((((collapseRuns (r.title.data.map Char.toLower)
          false).dropWhile (· == '-')).reverse.dropWhile
          (· == '-'))).reverse from rfl, List.getLast?_reverse] at this
      exact this
    exact dropWhile_hyphen_head _ c h0
  · have hfreeL := hfree
    rw [findBySlugAndLocale] at hfreeL
    have hcollide : findBySlugAndLocale db1
        (r2.slug.getD (generateSlug r2.title)) r2.locale =
        some (newPost db r now) := by
      rw [hns2]
      simp only [Option.getD_none, ht2, hl2]
      rw [findBySlugAndLocale, hposts, List.find?_append]
      rw [List.find?_eq_none.mpr (fun x hx =>
        List.find?_eq_none.mp hfreeL x hx)]
      rw [Option.none_or]
      rw [List.find?_cons_of_pos _ (by simp [hslug, newPost, hns])]
    simp [createPost, hv2, hcollide]
  · have hfreeL3 := hfree3
    rw [findBySlugAndLocale] at hfreeL3
    have hfree2 : findBySlugAndLocale db1
        (r3.slug.getD (generateSlug r3.title)) r3.locale = none := by
      rw [hns3]
      simp only [Option.getD_none, ht3]
      rw [findBySlugAndLocale, hposts, List.find?_append]
      rw [List.find?_eq_none.mpr (fun x hx =>
        List.find?_eq_none.mp hfreeL3 x hx)]
      rw [Option.none_or]
      rw [List.find?_eq_none.mpr (fun x hx => by
        rcases List.mem_singleton.mp hx with rfl
        simp only [Bool.and_eq_true, beq_iff_eq, not_and]
        intro _
        show ¬(newPost db r now).locale = r3.locale
        exact fun h => hl3 (h ▸ rfl))]
    obtain ⟨db2, hok3, -, -⟩ := createPost_ok db1 r3 now3 hv3 hfree2
    exact ⟨db2, hok3⟩

/-- Witness for C8 (amended): on an empty store, creating
"Hello, World!" (derived slug `hello-world`, locale `ko`) succeeds, a
second identical create fails with the validation error, and the same
derived slug in locale `en` succeeds. -/
theorem c8_slug_derivation_and_collision_witness :
    ∃ db1, createPost emptyDB c8req 10 = .ok (db1, nextId emptyDB) ∧
      findById db1 (nextId emptyDB) = some (newPost emptyDB c8req 10) ∧
      (newPost emptyDB c8req 10).slug = generateSlug c8req.title ∧
      (∀ c ∈ (generateSlug c8req.title).data,
        isLowerAlnum c = true ∨ c = '-') ∧
      (∀ c, (generateSlug c8req.title).data.head? = some c → c ≠ '-') ∧
      (∀ c, (generateSlug c8req.title).data.getLast? = some c → c ≠ '-') ∧
      createPost db1 c8req 20 = .error (.validation "Slug already exists") ∧
      (∃ db2, createPost db1 { c8req with locale := "en" } 30 =
        .ok (db2, nextId db1)) :=
  c8_slug_derivation_and_collision emptyDB c8req c8req
    { c8req with locale := "en" } 10 20 30
    (by decide) rfl (by decide) (by decide) rfl rfl rfl
    (by decide) rfl rfl (by decide) (by decide)

/-! ## C5 — translation guards run before any AI call -/

/-- C5, counterexample.  Requesting a second translation for the same
`(identity, en)` pair is rejected before any AI call — but with
`ValidationError("Translation already exists")` (HTTP 400), not with
the `ConflictError` category the claim's "conflict condition" names. -/
theorem c5_counterexample :
    (translatePost cxDb3 1 "en" wAi 50).1 =
      .error (.validation "Translation already exists") ∧
    (translatePost cxDb3 1 "en" wAi 50).2 = 0 ∧
    Err.isConflict (.validation "Translation already exists") = false := by
  decide

/-- C5 (amended: the duplicate is rejected with a validation error, not
a conflict error).  For every store, post id and AI oracle: an
unsupported target locale, a source that is not a Korean post (in
particular a translation, whose locale is `en`), and an existing
`(identity, en)` translation are each rejected with a validation error
and zero AI invocations — strictly before any external AI call. -/
theorem c5_translate_guards_before_ai (db : DB) (postId : Nat)
    (ai : AIOracle) (now : Nat) :
    (∀ tl, tl ≠ "en" →
      translatePost db postId tl ai now =
        (.error (.validation "Only English translation is supported"), 0)) ∧
    (∀ op, findById db postId = some op → op.locale ≠ "ko" →
      translatePost db postId "en" ai now =
        (.error (.validation "Only Korean posts can be translated"), 0)) ∧
    (∀ op tr, findById db postId = some op → op.locale = "ko" →
      findTranslation db postId "en" = some tr →
      translatePost db postId "en" ai now =
        (.error (.validation "Translation already exists"), 0)) := by
  refine ⟨?_, ?_, ?_⟩
  · intro tl htl
    have h : (tl == "en") = false := beq_eq_false_iff_ne.mpr htl
    simp [translatePost, h]
  · intro op hop hloc
    have h : (op.locale == "ko") = false := beq_eq_false_iff_ne.mpr hloc
    simp [translatePost, hop, h]
  · intro op tr hop hloc htr
    simp [translatePost, hop, hloc, htr]

/-- Witness for C5: on the fixture with identity 1 (ko) already
translated as post 2 (en): locale `fr` is rejected, translating the
translation itself (id 2) is rejected, and re-translating id 1 is
rejected as a duplicate — each with zero AI calls. -/
theorem c5_translate_guards_before_ai_witness :
    translatePost cxDb3 1 "fr" wAi 50 =
      (.error (.validation "Only English translation is supported"), 0) ∧
    translatePost cxDb3 2 "en" wAi 50 =
      (.error (.validation "Only Korean posts can be translated"), 0) ∧
    translatePost cxDb3 1 "en" wAi 50 =
      (.error (.validation "Translation already exists"), 0) := by
  refine ⟨(c5_translate_guards_before_ai cxDb3 1 wAi 50).1 "fr" (by decide),
    (c5_translate_guards_before_ai cxDb3 2 wAi 50).2.1
      (mkPost 2 "a-en" "published" "en" (some 1) 0 0) (by decide) (by decide),
    (c5_translate_guards_before_ai cxDb3 1 wAi 50).2.2
      (mkPost 1 "a" "published" "ko" none 0 0)
      (mkPost 2 "a-en" "published" "en" (some 1) 0 0)
      (by decide) (by decide) (by decide)⟩

/-! ## C6 — filtering and graceful degradation of related posts -/

/-- C6, counterexample.  `findSimilarPosts` applies no `publishedAt`
comparison anywhere: a neighbor whose metadata is published but
future-dated (effective publish time 999, in the future of any present
time below it) is returned, contradicting the claim's "excludes ... any
neighbor whose metadata marks it unpublished or future-dated". -/
theorem c6_counterexample :
    findSimilarPosts cxVz6 1 4 =
      [{ id := 2, slug := "s2", title := "t2", score := 9 }] ∧
    cxMetaFuture.publishedAt = some 999 ∧
    cxMetaFuture.state = "published" := by decide

/-- C6 (amended: the future-dated exclusion does not exist; unpublished
neighbors are excluded by the `state = "published"` metadata filter the
query passes to the index).  On every failure — index unreachable at
`getByIds` or `query`, or no stored vector — the result is `[]`, never
an error; on the success path, when the index honors its contract
(published-only matches, descending score order, vector ids consistent
with metadata ids), the result has at most `k` items, excludes the
source post itself, is ordered by descending similarity score, and each
item comes from a published match of the query. -/
theorem c6_findRelated_filtering (vz : Vectorize) (postId topK : Nat) :
    (∀ e, vz.getByIds ["post-" ++ toString postId] = .error e →
      findSimilarPosts vz postId topK = []) ∧
    (vz.getByIds ["post-" ++ toString postId] = .ok [] →
      findSimilarPosts vz postId topK = []) ∧
    (∀ vs v0, vz.getByIds ["post-" ++ toString postId] = .ok (v0 :: vs) →
      v0.values = none → findSimilarPosts vz postId topK = []) ∧
    (∀ vs v0 vals e, vz.getByIds ["post-" ++ toString postId] =
        .ok (v0 :: vs) → v0.values = some vals →
      vz.query vals (topK + 1) "published" = .error e →
      findSimilarPosts vz postId topK = []) ∧
    (∀ vs v0 vals ms, vz.getByIds ["post-" ++ toString postId] =
        .ok (v0 :: vs) → v0.values = some vals →
      vz.query vals (topK + 1) "published" = .ok ms →
      (∀ m ∈ ms, m.metadata.state = "published") →
      ms.Pairwise (fun a b => b.score ≤ a.score) →
      (∀ m ∈ ms, m.metadata.postId = postId ↔
        m.id = "post-" ++ toString postId) →
      (findSimilarPosts vz postId topK).length ≤ topK ∧
      (∀ r ∈ findSimilarPosts vz postId topK, r.id ≠ postId) ∧
      (findSimilarPosts vz postId topK).Pairwise
        (fun a b => b.score ≤ a.score) ∧
      (∀ r ∈ findSimilarPosts vz postId topK, ∃ m ∈ ms,
        m.metadata.state = "published" ∧ r.id = m.metadata.postId ∧
        r.score = m.score)) := by
  refine ⟨?_, ?_, ?_, ?_, ?_⟩
  · intro e he
    simp [findSimilarPosts, he]
  · intro h
    simp [findSimilarPosts, h]
  · intro vs v0 hgb hvals
    simp [findSimilarPosts, hgb, hvals]
  · intro vs v0 vals e hgb hvals hq
    simp [findSimilarPosts, hgb, hvals, hq]
  · intro vs v0 vals ms hgb hvals hq hpub hsort hid
    have hres : findSimilarPosts vz postId topK =
        ((ms.filter (fun m =>
          !(m.id == "post-" ++ toString postId))).take topK).map
          (fun m => { id := m.metadata.postId, slug := m.metadata.slug,
                      title := m.metadata.title, score := m.score }) := by
      simp [findSimilarPosts, hgb, hvals, hq]
    have hmem : ∀ r ∈ findSimilarPosts vz postId topK, ∃ m,
        (m ∈ ms ∧ ¬(m.id = "post-" ++ toString postId)) ∧
        r = ({ id := m.metadata.postId, slug := m.metadata.slug,
               title := m.metadata.title, score := m.score } :
               RelatedPost) := by
      intro r hr
      rw [hres] at hr
      rcases List.mem_map.mp hr with ⟨m, hm, hrm⟩
      have hm1 := List.take_subset topK _ hm
      rcases List.mem_filter.mp hm1 with ⟨hm2, hm3⟩
      exact ⟨m, ⟨hm2, by simpa using hm3⟩, hrm.symm⟩
    refine ⟨?_, ?_, ?_, ?_⟩
    · rw [hres, List.length_map]
      exact Nat.le_trans (Nat.le_of_eq (List.length_take _ _))
        (Nat.min_le_left _ _)
    · intro r hr
      rcases hmem r hr with ⟨m, ⟨hm, hmid⟩, rfl⟩
      intro hcontra
      exact hmid ((hid m hm).mp hcontra)
    · rw [hres]
      rw [List.pairwise_map]
      exact List.Pairwise.sublist (List.take_sublist _ _)
        (List.Pairwise.filter _ hsort)
    · intro r hr
      rcases hmem r hr with ⟨m, ⟨hm, -⟩, rfl⟩
      exact ⟨m, hm, hpub m hm, rfl, rfl⟩

/-- Witness for C6 (amended): the unreachable index yields `[]`, and on
the concrete index `cxVz6` the returned list (just the future-dated
published neighbor) is within bounds, self-free, score-ordered, and
drawn from the query's published matches. -/
theorem c6_findRelated_filtering_witness :
    findSimilarPosts cxVzErr 1 4 = [] ∧
    (findSimilarPosts cxVz6 1 4).length ≤ 4 ∧
    (∀ r ∈ findSimilarPosts cxVz6 1 4, r.id ≠ 1) ∧
    (findSimilarPosts cxVz6 1 4).Pairwise (fun a b => b.score ≤ a.score) ∧
    (∀ r ∈ findSimilarPosts cxVz6 1 4, ∃ m ∈
      [({ id := "post-1", score := 10, metadata := cxMetaSelf } : VMatch),
       { id := "post-2", score := 9, metadata := cxMetaFuture }],
      m.metadata.state = "published" ∧ r.id = m.metadata.postId ∧
      r.score = m.score) := by
  have herr := (c6_findRelated_filtering cxVzErr 1 4).1 "index unavailable"
    (by decide)
  have hok := (c6_findRelated_filtering cxVz6 1 4).2.2.2.2 []
    { id := "post-1", values := some [1, 0] } [1, 0]
    [{ id := "post-1", score := 10, metadata := cxMetaSelf },
     { id := "post-2", score := 9, metadata := cxMetaFuture }]
    (by decide) (by decide) (by decide) (by decide) (by decide) (by decide)
  exact ⟨herr, hok.1, hok.2.1, hok.2.2.1, hok.2.2.2⟩

/-! ## C7 — scheduled posts: hidden publicly, labelled in admin -/

/-- C7.  The public listing never returns a post whose creation
timestamp is in the future (its `WHERE` clause requires
`created_at <= now` besides `state = 'published'`), while the admin
listing (which filters neither state nor time) includes every such post
with the computed display state `"scheduled"`, and keeps display state
`"draft"` for drafts. -/
theorem c7_public_hides_future_admin_labels_scheduled (db : DB)
    (now : Nat) :
    (∀ tag locale page size sort res,
      getPosts db tag locale page size sort now = .ok res →
      ∀ item ∈ res.content, item.createdAt ≤ now) ∧
    (∀ size sort res,
      getAdminPosts db none 0 size sort now = .ok res →
      db.posts.length ≤ size →
      (∀ p ∈ db.posts, p.state = "published" → now < p.created_at →
        ∃ item ∈ res.content, item.id = p.id ∧
          item.state = some "scheduled") ∧
      (∀ p ∈ db.posts, p.state = "draft" →
        ∃ item ∈ res.content, item.id = p.id ∧
          item.state = some "draft")) := by
  constructor
  · intro tag locale page size sort res hres item hitem
    rcases hpe : validatePagination page size with - | ⟨e, es⟩
    swap
    · rw [getPosts, hpe] at hres
      cases hres
    rcases hse : validateSorting sort
        ["createdAt", "updatedAt", "views", "title"] with - | ⟨e, es⟩
    swap
    · rw [getPosts, hpe, hse] at hres
      cases hres
    rw [getPosts, hpe, hse] at hres
    cases hres
    rcases List.mem_map.mp hitem with ⟨q, hq, rfl⟩
    have hq1 := List.drop_subset _ _ (List.take_subset _ _ hq)
    have hq2 := (mem_sortLe_iff _ _ q).mp hq1
    rcases List.mem_map.mp hq2 with ⟨p, hp, rfl⟩
    have hcond := (List.mem_filter.mp hp).2
    simp only [publicWhere, Bool.and_eq_true, decide_eq_true_eq] at hcond
    exact hcond.1.2
  · intro size sort res hres hlen
    rcases hpe : validatePagination 0 size with - | ⟨e, es⟩
    swap
    · rw [getAdminPosts, hpe] at hres
      cases hres
    rcases hse : validateSorting sort
        ["createdAt", "updatedAt", "views", "title"] with - | ⟨e, es⟩
    swap
    · rw [getAdminPosts, hpe, hse] at hres
      cases hres
    rw [getAdminPosts, hpe, hse] at hres
    cases hres
    have hall : ∀ p ∈ db.posts, adminItem db now
        { p with views := coalescedViews db p } ∈
        (findAllAdmin db none (0 * size) size (sortSpec sort)).map
          (adminItem db now) := by
      intro p hp
      apply List.mem_map_of_mem
      rw [findAllAdmin, Nat.zero_mul, List.drop_zero,
        List.take_of_length_le]
      · rw [mem_sortLe_iff]
        apply List.mem_map_of_mem
        exact List.mem_filter.mpr ⟨hp, rfl⟩
      · rw [length_sortLe, List.length_map]
        exact Nat.le_trans (List.length_filter_le _ _) hlen
    constructor
    · intro p hp hpub hfut
      refine ⟨adminItem db now { p with views := coalescedViews db p },
        hall p hp, rfl, ?_⟩
      simp [adminItem, hpub, hfut]
    · intro p hp hdraft
      refine ⟨adminItem db now { p with views := coalescedViews db p },
        hall p hp, rfl, ?_⟩
      simp [adminItem, hdraft]

/-- Witness for C7: with one scheduled post (published, created at 99)
and one draft, listed at `now = 5`: the public listing shows neither; in
the admin listing the scheduled post appears labelled `"scheduled"` and
the draft as `"draft"`. -/
theorem c7_public_hides_future_admin_labels_scheduled_witness :
    (∀ item ∈ wRes7pub.content, item.createdAt ≤ 5) ∧
    (∃ item ∈ wRes7adm.content, item.id = 3 ∧
      item.state = some "scheduled") ∧
    (∃ item ∈ wRes7adm.content, item.id = 4 ∧
      item.state = some "draft") := by
  have h := c7_public_hides_future_admin_labels_scheduled wDb7 5
  refine ⟨h.1 none "ko" 0 10 "createdAt,desc" wRes7pub (by decide), ?_, ?_⟩
  · exact (h.2 10 "createdAt,desc" wRes7adm (by decide) (by decide)).1
      (mkPost 3 "f" "published" "ko" none 99 0) (by decide) (by decide)
      (by decide)
  · exact (h.2 10 "createdAt,desc" wRes7adm (by decide) (by decide)).2
      (mkPost 4 "d" "draft" "ko" none 0 0) (by decide) (by decide)

/-! ## Inversion lemmas for the service operations -/

/-- A successful `createPost` appends exactly one row, whose
back-reference and locale come straight from the request body. -/
theorem createPost_ok_inv {db : DB} {r : PostReq} {now : Nat} {db' : DB}
    {pid : Nat} (h : createPost db r now = .ok (db', pid)) :
    ∃ newP : Post, newP.original_post_id = r.originalPostId ∧
      newP.locale = r.locale ∧ db'.posts = db.posts ++ [newP] := by
  rcases hv : validatePostRequest r with - | e
  · rcases hf : findBySlugAndLocale db (r.slug.getD (generateSlug r.title))
        r.locale with - | q
    · simp only [createPost, hv, hf] at h
      rw [Except.ok.injEq, Prod.mk.injEq] at h
      refine ⟨newPost db r now, rfl, rfl, ?_⟩
      rw [← h.1]
      exact (associateTags_fields r.tags _ (nextId db) now).1
    · simp only [createPost, hv, hf] at h
      exact Except.noConfusion h
  · simp only [createPost, hv] at h
    exact Except.noConfusion h

/-- A successful `updatePost` rewrites rows in place through a function
that never touches `id`, `original_post_id` or `locale`. -/
theorem updatePost_ok_inv {db : DB} {postId : Nat} {r : PostReq}
    {now : Nat} {db' : DB} (h : updatePost db postId r now = .ok db') :
    ∃ f : Post → Post, (∀ q, (f q).id = q.id) ∧
      (∀ q, (f q).original_post_id = q.original_post_id) ∧
      (∀ q, (f q).locale = q.locale) ∧ db'.posts = db.posts.map f := by
  rcases hv : validatePostRequest r with - | e
  · rcases hf : findById db postId with - | p0
    · simp only [updatePost, hv, hf] at h
      exact Except.noConfusion h
    · simp only [updatePost, hv, hf] at h
      split at h
      · exact Except.noConfusion h
      · rw [Except.ok.injEq] at h
        refine ⟨fun p : Post => if p.id == postId then updRow r now p else p,
          fun q => by by_cases hq : (q.id == postId) = true <;>
            simp [hq, updRow],
          fun q => by by_cases hq : (q.id == postId) = true <;>
            simp [hq, updRow],
          fun q => by by_cases hq : (q.id == postId) = true <;>
            simp [hq, updRow], ?_⟩
        rw [← h]
        exact (associateTags_fields r.tags _ postId now).1
  · simp only [updatePost, hv] at h
    exact Except.noConfusion h

/-- A successful translate found a Korean source row and appended one
row whose back-reference is the source id and whose locale is `en`. -/
theorem translatePost_ok_inv {db : DB} {postId : Nat} {tl : String}
    {ai : AIOracle} {now : Nat} {db' : DB} {nid : Nat}
    (h : (translatePost db postId tl ai now).1 = .ok (db', nid)) :
    ∃ (op newP : Post), findById db postId = some op ∧
      op.locale = "ko" ∧ op.id = postId ∧ op ∈ db.posts ∧
      newP.original_post_id = some postId ∧ newP.locale = "en" ∧
      db'.posts = db.posts ++ [newP] := by
  by_cases h1 : (tl == "en") = true
  · rcases hf : findById db postId with - | op
    · simp only [translatePost, h1, hf] at h
      exact Except.noConfusion h
    · by_cases h2 : (op.locale == "ko") = true
      · rcases ht : findTranslation db postId tl with - | tr
        swap
        · simp only [translatePost, h1, hf, h2, ht] at h
          exact Except.noConfusion h
        · rcases ha : ai.translateTitle op.title with - | tt
          · simp only [translatePost, h1, hf, h2, ht, ha] at h
            exact Except.noConfusion h
          · rcases hc : ai.translateContent op.content with - | tc
            · simp only [translatePost, h1, hf, h2, ht, ha, hc] at h
              exact Except.noConfusion h
            · simp only [translatePost, h1, hf, h2, ht, ha, hc] at h
              obtain ⟨newP, hno, hnl, hposts⟩ := createPost_ok_inv h
              refine ⟨op, newP, rfl, by simpa using h2, ?_, ?_, hno, ?_,
                hposts⟩
              · have := List.find?_some hf
                simpa using this
              · exact List.mem_of_find?_eq_some hf
              · rw [hnl]
                simpa using h1
      · simp only [translatePost, h1, hf, h2] at h
        exact Except.noConfusion h
  · have h1' : (tl == "en") = false := by simpa using h1
    simp only [translatePost, h1'] at h
    exact Except.noConfusion h

/-! ## C4 — translations never chain (reachable states) -/

/-- C4, counterexample.  The claim's operation set includes `createPost`,
and `createPost` forwards whatever `originalPostId` the request body
carries without validating it; three creates therefore reach a state
where post 3 references post 2, itself a translation of post 1 — a
chain, violating the invariant as stated. -/
theorem c4_counterexample : Reach cxDb4c ∧ ¬ChainFree cxDb4c := by
  constructor
  · exact Reach.create (Reach.create (Reach.create Reach.empty
      (show createPost emptyDB r4a 10 = .ok (cxDb4a, 1) by decide))
      (show createPost cxDb4a r4b 20 = .ok (cxDb4b, 2) by decide))
      (show createPost cxDb4b r4c 30 = .ok (cxDb4c, 3) by decide)
  · intro h
    obtain ⟨q, hq, hqid, hqorig⟩ := h cxP4c (by decide) 2 rfl
    have : q = cxP4a ∨ q = cxP4b ∨ q = cxP4c := by
      simpa [cxDb4c] using hq
    rcases this with rfl | rfl | rfl
    · exact absurd hqid (by decide)
    · exact absurd hqorig (by decide)
    · exact absurd hqid (by decide)

/-- Strengthened invariant for the restricted operation set. -/
theorem reachNoOrig_inv (db : DB) (h : ReachNoOrig db) : InvC4 db := by
  induction h with
  | empty =>
    exact ⟨fun p hp => absurd hp (by simp), fun p hp => absurd hp (by simp)⟩
  | create hre hno heq ih =>
    obtain ⟨newP, hnporig, hnploc, hposts⟩ := createPost_ok_inv heq
    rw [hno] at hnporig
    constructor
    · intro p hp oid horig
      rw [hposts] at hp
      rcases List.mem_append.mp hp with hp1 | hp1
      · obtain ⟨q, hq, hqid, hqorig⟩ := ih.1 p hp1 oid horig
        exact ⟨q, by rw [hposts]; exact List.mem_append_left _ hq, hqid,
          hqorig⟩
      · rcases List.mem_singleton.mp hp1 with rfl
        rw [hnporig] at horig
        cases horig
    · intro p hp hko
      rw [hposts] at hp
      rcases List.mem_append.mp hp with hp1 | hp1
      · exact ih.2 p hp1 hko
      · rcases List.mem_singleton.mp hp1 with rfl
        exact hnporig
  | update hre heq ih =>
    obtain ⟨f, hfid, hforig, hfloc, hposts⟩ := updatePost_ok_inv heq
    constructor
    · intro p hp oid horig
      rw [hposts] at hp
      rcases List.mem_map.mp hp with ⟨p0, hp0, rfl⟩
      rw [hforig p0] at horig
      obtain ⟨q, hq, hqid, hqorig⟩ := ih.1 p0 hp0 oid horig
      refine ⟨f q, by rw [hposts]; exact List.mem_map_of_mem f hq, ?_, ?_⟩
      · rw [hfid q]; exact hqid
      · rw [hforig q]; exact hqorig
    · intro p hp hko
      rw [hposts] at hp
      rcases List.mem_map.mp hp with ⟨p0, hp0, rfl⟩
      rw [hfloc p0] at hko
      rw [hforig p0]
      exact ih.2 p0 hp0 hko
  | translate hre heq ih =>
    obtain ⟨op, newP, hf, hloc, hopid, hopmem, hnporig, hnploc, hposts⟩ :=
      translatePost_ok_inv heq
    have hopnone : op.original_post_id = none := ih.2 op hopmem hloc
    constructor
    · intro p hp oid horig
      rw [hposts] at hp
      rcases List.mem_append.mp hp with hp1 | hp1
      · obtain ⟨q, hq, hqid, hqorig⟩ := ih.1 p hp1 oid horig
        exact ⟨q, by rw [hposts]; exact List.mem_append_left _ hq, hqid,
          hqorig⟩
      · rcases List.mem_singleton.mp hp1 with rfl
        rw [hnporig, Option.some.injEq] at horig
        subst horig
        exact ⟨op, by rw [hposts]; exact List.mem_append_left _ hopmem,
          hopid, hopnone⟩
    · intro p hp hko
      rw [hposts] at hp
      rcases List.mem_append.mp hp with hp1 | hp1
      · exact ih.2 p hp1 hko
      · rcases List.mem_singleton.mp hp1 with rfl
        rw [hnploc] at hko
        exact absurd hko (by decide)

/-- C4 (amended: restricted to `createPost` requests that do not supply
an `originalPostId` — translation rows then enter the store only through
the translate operation).  In every state so reachable, every post with
a non-null `original_post_id` references an existing post whose own
`original_post_id` is null: translations never chain. -/
theorem c4_no_chained_translations (db : DB) (h : ReachNoOrig db) :
    ChainFree db :=
  (reachNoOrig_inv db h).1

/-- Witness for C4 (amended): the state reached by creating a Korean
identity post and then translating it is chain-free. -/
theorem c4_no_chained_translations_witness : ChainFree cxDb4t := by
  have h1 : createPost emptyDB r4a 10 = .ok (cxDb4a, 1) := by decide
  have hr1 : ReachNoOrig cxDb4a := ReachNoOrig.create ReachNoOrig.empty rfl h1
  have h2 : (translatePost cxDb4a 1 "en" wAi 20).1 = .ok (cxDb4t, 2) := by
    decide
  exact c4_no_chained_translations cxDb4t (ReachNoOrig.translate hr1 h2)

end BlogSpec
